import Mathlib

/-!
Verification of the AllJoyn permission/policy authorization engine
(`alljoyn_core/src/PermissionManager.cc`).

The definitions below are a shallow embedding of the static functions of
that file: `IsActionDenied`, `IsActionAllowed`, `IsRuleMatched`,
`IsPolicyAclMatched`, `GenRight`, `IsAuthorizedByPeerManifest`,
`IsPeerQualifiedForAcl`, `IsPeerAuthorized`, `IsAuthorized`,
`ParsePropertiesMessage`, `AuthorizePermissionMgmt` and
`PermissionManager::AuthorizeMessage`.  C++ by-reference booleans
(`denied`, `qualifiedPeerWithPublicKey`) become explicit inputs/outputs;
loops with early `return` become structural recursions returning the
value together with the final state of the by-reference flag.
-/

namespace Ajn

/-- `PermissionPolicy::Rule::Member::MemberType`. -/
inductive MemberType where
  | methodCall
  | signal
  | property
  | notSpecified
deriving DecidableEq, Repr

/-- Action mask bit `ACTION_PROVIDE` (`PermissionPolicy.h`, value 0x01). -/
def ACTION_PROVIDE : Nat := 1
/-- Action mask bit `ACTION_OBSERVE` (`PermissionPolicy.h`, value 0x02). -/
def ACTION_OBSERVE : Nat := 2
/-- Action mask bit `ACTION_MODIFY` (`PermissionPolicy.h`, value 0x04). -/
def ACTION_MODIFY : Nat := 4

/-- `PermissionPolicy::Rule::Member`: member name pattern, member type and
action mask (a uint8 bit set). -/
structure Member where
  memberName : String
  memberType : MemberType
  actionMask : Nat
deriving DecidableEq, Repr

/-- `PermissionPolicy::Rule`: object path pattern, interface name pattern and
the member list. -/
structure Rule where
  objPath : String
  interfaceName : String
  members : List Member
deriving DecidableEq, Repr

/-- `PermissionPolicy::Peer` types. -/
inductive PeerType where
  | all
  | anyTrusted
  | withPublicKey
  | fromCertificateAuthority
  | withMembership
deriving DecidableEq, Repr

/-- `PermissionPolicy::Peer`: a peer qualifier of an ACL.  Public keys are
modelled as `Nat`; `keyInfo = none` models a null `GetKeyInfo()`. -/
structure Peer where
  ptype : PeerType
  keyInfo : Option Nat
  securityGroupId : Nat
deriving DecidableEq, Repr

/-- `PermissionPolicy::Acl`: peer qualifiers plus rules. -/
structure Acl where
  peers : List Peer
  rules : List Rule
deriving DecidableEq, Repr

/-- `PermissionPolicy`: the ACL list (the version/serial fields play no role
in the evaluation code). -/
structure PermissionPolicy where
  acls : List Acl
deriving DecidableEq, Repr

/-- `CertificateX509` certificate types, as far as the evaluator inspects
them (`MEMBERSHIP_CERTIFICATE` versus anything else). -/
inductive CertType where
  | membership
  | other
deriving DecidableEq, Repr

/-- One certificate of a membership chain: its type and its guild
(security-group) GUID, modelled as `Nat`. -/
structure Cert where
  ctype : CertType
  guild : Nat
deriving DecidableEq, Repr

/-- `_PeerState::GuildMetadata`: the certificate chain of one guild entry. -/
structure GuildMetadata where
  certChain : List Cert
deriving DecidableEq, Repr

/-- The slice of `PeerState` that the evaluator reads: the guild map, the
peer's manifests (each manifest is its rule list), whether the peer is the
local peer, and the negotiated auth suite. -/
structure PeerStateData where
  guildMap : List GuildMetadata
  manifests : List (List Rule)
  isLocalPeer : Bool
  authSuite : Nat
deriving DecidableEq, Repr

/-- The `Request` struct of `PermissionManager.cc`.  `mbrName = none`
models a NULL member-name pointer (as produced by the `GetAll` parse),
`some ""` an empty one; `IsRuleMatched` treats both as "unspecified". -/
structure Request where
  outgoing : Bool
  propertyRequest : Bool
  isSetProperty : Bool
  objPath : String
  iName : String
  mbrName : Option String
  mbrType : MemberType
deriving DecidableEq, Repr

/-- Character-list prefix test: `strPfx p s` holds when `p` is a prefix of
`s` (the embedding of C `strncmp(s, p, strlen(p)) == 0`). -/
def strPfx : List Char → List Char → Bool
  | [], _ => true
  | _ :: _, [] => false
  | c :: cs, d :: ds => c == d && strPfx cs ds

/-- `strncmp(s, pre, strlen(pre)) == 0`: `s` starts with `pre`. -/
def strStartsWith (s pre : String) : Bool := strPfx pre.data s.data

/-- Modelled from the spec: `qcc::WildcardMatch` is not part of `src/`.
Per spec §4.2 an object path / interface / member pattern matches when it
is a string-prefix of the request's value, and per the scenarios of spec
§8 the pattern `"*"` matches every value; so a pattern that ends in the
wildcard `*` matches by the prefix before the star, and any other pattern
matches by plain string prefix.  `MatchesPfx s p` is the embedding of
`MatchesPrefix(s, p) = !WildcardMatch(String(s), p)`. -/
def MatchesPfx (str pat : String) : Bool :=
  if pat.data.getLast? = some '*' then strPfx pat.data.dropLast str.data
  else strPfx pat.data str.data

/-- `IsActionDenied`: the requested action is explicitly denied when the
allowed-action mask is zero. -/
def IsActionDenied (allowedActions : Nat) : Bool :=
  allowedActions == 0

/-- `IsActionAllowed`: the mask covers the requested action bitwise. -/
def IsActionAllowed (allowedActions requestedAction : Nat) : Bool :=
  (allowedActions &&& requestedAction) == requestedAction

/-- The member loop of `IsRuleMatched` for the GetAllProperties regime
(request member name unspecified), lines 175–206.  Arguments `allowed` and
`denied` are the loop accumulator and the by-reference `denied` flag; the
result is `(return value, final denied)`.  `scan` is the local
`scanForDenied` value after the `"*"`-qualification reset. -/
def getAllMemberLoop (requiredAuth : Nat) (scan strict : Bool) :
    List Member → Bool → Bool → Bool × Bool
  | [], allowed, denied => (allowed, denied)
  | m :: ms, allowed, denied =>
    if m.memberName = "" then
      getAllMemberLoop requiredAuth scan strict ms allowed denied
    else if m.memberName = "*" then
      if scan && IsActionDenied m.actionMask then
        (false, true)
      else if m.memberType ≠ MemberType.property ∧ m.memberType ≠ MemberType.notSpecified then
        getAllMemberLoop requiredAuth scan strict ms allowed denied
      else
        let allowed' := allowed || IsActionAllowed m.actionMask requiredAuth
        if allowed' && !scan then (allowed', denied)
        else getAllMemberLoop requiredAuth scan strict ms allowed' denied
    else
      let allowed' := if !strict then true else allowed
      if allowed' && !scan then (allowed', denied)
      else getAllMemberLoop requiredAuth scan strict ms allowed' denied

/-- The member loop of `IsRuleMatched` for a request with a member name,
lines 210–241. -/
def namedMemberLoop (mbrName : String) (mbrType : MemberType) (requiredAuth : Nat)
    (scan : Bool) : List Member → Bool → Bool → Bool × Bool
  | [], allowed, denied => (allowed, denied)
  | m :: ms, allowed, denied =>
    if m.memberName = "" then
      namedMemberLoop mbrName mbrType requiredAuth scan ms allowed denied
    else if ¬(m.memberName = mbrName ∨ MatchesPfx mbrName m.memberName) then
      namedMemberLoop mbrName mbrType requiredAuth scan ms allowed denied
    else if m.memberType ≠ MemberType.notSpecified ∧ mbrType ≠ m.memberType then
      namedMemberLoop mbrName mbrType requiredAuth scan ms allowed denied
    else if scan && (m.memberName = "*") && IsActionDenied m.actionMask then
      (false, true)
    else
      let allowed' := allowed || IsActionAllowed m.actionMask requiredAuth
      if allowed' && !scan then (allowed', denied)
      else namedMemberLoop mbrName mbrType requiredAuth scan ms allowed' denied

/-- `IsRuleMatched(rule, request, requiredAuth, scanForDenied, denied,
strictGetAllProperties)`.  Returns the function's boolean result together
with the final value of the by-reference `denied` flag. -/
def IsRuleMatched (rule : Rule) (request : Request) (requiredAuth : Nat)
    (scanForDenied denied strictGetAllProperties : Bool) : Bool × Bool :=
  if rule.members.length = 0 then (false, denied)
  else if rule.objPath = "" then (false, denied)
  else if rule.interfaceName = "" then (false, denied)
  else if ¬(rule.objPath = request.objPath ∨ MatchesPfx request.objPath rule.objPath) then
    (false, denied)
  else if ¬(rule.interfaceName = request.iName ∨ MatchesPfx request.iName rule.interfaceName) then
    (false, denied)
  else
    -- explicit deny requires object path = * and interface name = *
    let scan := scanForDenied && (rule.objPath = "*") && (rule.interfaceName = "*")
    if request.mbrName.getD "" = "" then
      if !request.propertyRequest then (false, denied)
      else getAllMemberLoop requiredAuth scan strictGetAllProperties rule.members false denied
    else
      namedMemberLoop (request.mbrName.getD "") request.mbrType requiredAuth scan
        rule.members false denied

/-- The rule loop of `IsPolicyAclMatched`, lines 252–261. -/
def aclRuleLoop (request : Request) (requiredAuth : Nat) (scanForDenied strict : Bool) :
    List Rule → Bool → Bool → Bool × Bool
  | [], allowed, denied => (allowed, denied)
  | r :: rs, allowed, denied =>
    let res := IsRuleMatched r request requiredAuth scanForDenied denied strict
    if res.1 then aclRuleLoop request requiredAuth scanForDenied strict rs true res.2
    else if res.2 then (allowed, res.2)
    else aclRuleLoop request requiredAuth scanForDenied strict rs allowed res.2

/-- `IsPolicyAclMatched(acl, request, requiredAuth, scanForDenied, denied)`:
`strictGetAllProperties` is the request direction. -/
def IsPolicyAclMatched (acl : Acl) (request : Request) (requiredAuth : Nat)
    (scanForDenied denied : Bool) : Bool × Bool :=
  aclRuleLoop request requiredAuth scanForDenied request.outgoing acl.rules false denied

/-- `GenRight(request, right)`: derives the required right
(`right.authByPolicy`, initialized to 0) from the request. -/
def GenRight (request : Request) : Nat :=
  if request.propertyRequest then
    if request.mbrType = MemberType.signal then
      -- the PropertiesChanged signal
      if request.outgoing then ACTION_OBSERVE else ACTION_PROVIDE
    else if request.isSetProperty then
      if request.outgoing then ACTION_PROVIDE else ACTION_MODIFY
    else
      if request.outgoing then ACTION_PROVIDE else ACTION_OBSERVE
  else if request.mbrType = MemberType.methodCall then
    if request.outgoing then ACTION_PROVIDE else ACTION_MODIFY
  else if request.mbrType = MemberType.signal then
    if request.outgoing then ACTION_OBSERVE else ACTION_PROVIDE
  else 0

/-- The rule loop of `IsAuthorizedByPeerManifest` over one manifest,
lines 331–342.  Each rule sees a fresh `denied := false`; the pair is
`(allowed accumulator, whole-function early `return false` triggered)`. -/
def manifestRuleLoop (request : Request) (rightAuthByPolicy : Nat) (strict : Bool) :
    List Rule → Bool → Bool × Bool
  | [], allowed => (allowed, false)
  | r :: rs, allowed =>
    let res := IsRuleMatched r request rightAuthByPolicy false false strict
    if res.1 then manifestRuleLoop request rightAuthByPolicy strict rs true
    else if res.2 then (allowed, true)
    else manifestRuleLoop request rightAuthByPolicy strict rs allowed

/-- The manifest loop of `IsAuthorizedByPeerManifest`, lines 329–343. -/
def manifestsLoop (request : Request) (rightAuthByPolicy : Nat) :
    List (List Rule) → Bool → Bool
  | [], allowed => allowed
  | mf :: mfs, allowed =>
    let res := manifestRuleLoop request rightAuthByPolicy request.outgoing mf allowed
    if res.2 then false
    else manifestsLoop request rightAuthByPolicy mfs res.1

/-- `IsAuthorizedByPeerManifest(request, right, peerState)`. -/
def IsAuthorizedByPeerManifest (request : Request) (rightAuthByPolicy : Nat)
    (peerState : PeerStateData) : Bool :=
  manifestsLoop request rightAuthByPolicy peerState.manifests false

/-- The guild-map scan of the `PEER_WITH_MEMBERSHIP` case of
`IsPeerQualifiedForAcl`, lines 387–399: some guild entry has a non-empty
certificate chain whose leaf is a membership certificate for the entry's
security group. -/
def hasQualifyingMembership (peerState : PeerStateData) (securityGroupId : Nat) : Bool :=
  peerState.guildMap.any fun md =>
    match md.certChain with
    | [] => false
    | c :: _ => c.ctype = CertType.membership && securityGroupId = c.guild

/-- The peer-entry loop of `IsPeerQualifiedForAcl`, lines 357–401.
Returns `(qualified, qualifiedPeerWithPublicKey)`; the flag is set only on
the exact public-key match path. -/
def peerQualLoop (peerState : PeerStateData) (trustedPeer : Bool)
    (peerPublicKey : Option Nat) (issuerChain : List Nat) : List Peer → Bool × Bool
  | [] => (false, false)
  | p :: ps =>
    if p.ptype = PeerType.all then (true, false)
    else if !trustedPeer then peerQualLoop peerState trustedPeer peerPublicKey issuerChain ps
    else if p.ptype = PeerType.anyTrusted then (true, false)
    else
      match peerPublicKey with
      | none => peerQualLoop peerState trustedPeer peerPublicKey issuerChain ps
      | some pk =>
        if p.ptype = PeerType.withPublicKey ∧ p.keyInfo = some pk then (true, true)
        else if p.ptype = PeerType.fromCertificateAuthority ∧ p.keyInfo.isSome ∧
            issuerChain.any (fun k => p.keyInfo = some k) then (true, false)
        else if p.ptype = PeerType.withMembership ∧
            hasQualifyingMembership peerState p.securityGroupId then (true, false)
        else peerQualLoop peerState trustedPeer peerPublicKey issuerChain ps

/-- `IsPeerQualifiedForAcl(acl, peerState, trustedPeer, peerPublicKey,
issuerChain, qualifiedPeerWithPublicKey)`: result and key-match flag. -/
def IsPeerQualifiedForAcl (acl : Acl) (peerState : PeerStateData) (trustedPeer : Bool)
    (peerPublicKey : Option Nat) (issuerChain : List Nat) : Bool × Bool :=
  peerQualLoop peerState trustedPeer peerPublicKey issuerChain acl.peers

/-- The ACL loop of `IsPeerAuthorized`, lines 422–435.  The pair is
`(allowed accumulator, denied flag)`; the deny scan flag of each ACL is
the `qualifiedPeerWithPublicKey` output of the qualifier. -/
def peerAclsLoop (request : Request) (peerState : PeerStateData) (trustedPeer : Bool)
    (peerPublicKey : Option Nat) (issuerChain : List Nat) (requiredAuth : Nat) :
    List Acl → Bool → Bool → Bool × Bool
  | [], allowed, denied => (allowed, denied)
  | acl :: acls, allowed, denied =>
    let q := IsPeerQualifiedForAcl acl peerState trustedPeer peerPublicKey issuerChain
    if !q.1 then
      peerAclsLoop request peerState trustedPeer peerPublicKey issuerChain requiredAuth
        acls allowed denied
    else
      let res := IsPolicyAclMatched acl request requiredAuth q.2 denied
      let allowed' := if res.1 then true else allowed
      if res.2 then (allowed', res.2)
      else peerAclsLoop request peerState trustedPeer peerPublicKey issuerChain requiredAuth
        acls allowed' res.2

/-- `IsPeerAuthorized(request, policy, peerState, trustedPeer,
peerPublicKey, issuerChain, requiredAuth, denied)`: returns the result and
the by-reference `denied` flag (initialized `false` at entry). -/
def IsPeerAuthorized (request : Request) (policy : PermissionPolicy)
    (peerState : PeerStateData) (trustedPeer : Bool) (peerPublicKey : Option Nat)
    (issuerChain : List Nat) (requiredAuth : Nat) : Bool × Bool :=
  peerAclsLoop request peerState trustedPeer peerPublicKey issuerChain requiredAuth
    policy.acls false false

/-- The AllJoyn status codes this engine produces or tests.  `fail` is
`ER_FAIL`, `invalidData` is `ER_INVALID_DATA`, `busSignatureMismatch` is
the unpack failure of `MsgArg::Get`/`Message::GetArgs` on a non-matching
signature. -/
inductive QStatus where
  | ok
  | fail
  | invalidData
  | permissionDenied
  | busKeyUnavailable
  | busSignatureMismatch
deriving DecidableEq, Repr

/-- `KeyExchangerECDHE_PSK::AuthName()`. -/
def authNameECDHE_PSK : String := "ALLJOYN_ECDHE_PSK"
/-- `AuthMechSRP::AuthName()`. -/
def authNameSRP : String := "ALLJOYN_SRP_KEYX"
/-- `AuthMechLogon::AuthName()`. -/
def authNameLogon : String := "ALLJOYN_SRP_LOGON"

/-- `PermissionConfigurator` claim-capability bits. -/
def CAPABLE_ECDHE_NULL : Nat := 1
/-- `PermissionConfigurator` claim-capability bits. -/
def CAPABLE_ECDHE_PSK : Nat := 2
/-- `PermissionConfigurator` claim-capability bits. -/
def CAPABLE_ECDHE_ECDSA : Nat := 4
/-- `PermissionConfigurator` claim-capability bits. -/
def CAPABLE_ECDHE_SPEKE : Nat := 8

/-- Auth-suite identifiers (`AUTH_SUITE_ECDHE_NULL`, ...); the evaluator
only compares them for equality, so they are opaque distinct numbers. -/
def AUTH_SUITE_ECDHE_NULL : Nat := 1
/-- Auth-suite identifier. -/
def AUTH_SUITE_ECDHE_PSK : Nat := 2
/-- Auth-suite identifier. -/
def AUTH_SUITE_ECDHE_SPEKE : Nat := 3
/-- Auth-suite identifier. -/
def AUTH_SUITE_ECDHE_ECDSA : Nat := 4

/-- The facts the engine reads from its `PermissionMgmtObj` collaborator
(spec §6: `hasTrustAnchors()`, `GetPublicKey`, `GetClaimCapabilities`).
They are inputs to the evaluation, produced outside this core. -/
structure MgmtObj where
  hasTrustAnchors : Bool
  getPublicKeyStatus : QStatus
  localPublicKey : Nat
  getClaimCapabilitiesStatus : QStatus
  claimCapabilities : Nat
deriving DecidableEq, Repr

/-- The result of `PermissionMgmtObj::GetConnectedPeerAuthMetadata` for the
remote peer (spec §6 `getPeerTrust`): status, auth mechanism name, whether
a public key was exchanged, that key, and the issuer chain. -/
structure AuthMetadata where
  status : QStatus
  authMechanism : String
  publicKeyFound : Bool
  peerPublicKey : Nat
  issuerPublicKeys : List Nat
deriving DecidableEq, Repr

/-- Outcome of the trust-resolution block of `IsAuthorized`,
lines 466–501: trusted flag, trusted peer public key (`none` = NULL),
issuer chain, and whether manifest enforcement remains on. -/
structure TrustResolution where
  trustedPeer : Bool
  trustedPeerPublicKey : Option Nat
  issuerPublicKeys : List Nat
  enforceManifest : Bool
deriving DecidableEq, Repr

/-- The trust-resolution block of `IsAuthorized`, lines 466–501,
over the collaborator data.  `enforceManifest` starts `true`. -/
def resolveTrust (peerState : PeerStateData) (mgmt : MgmtObj) (meta : AuthMetadata)
    (authenticated : Bool) : TrustResolution :=
  if authenticated then
    if peerState.isLocalPeer then
      if mgmt.getPublicKeyStatus = QStatus.ok then
        { trustedPeer := true, trustedPeerPublicKey := some mgmt.localPublicKey,
          issuerPublicKeys := [], enforceManifest := false }
      else
        { trustedPeer := false, trustedPeerPublicKey := none,
          issuerPublicKeys := [], enforceManifest := true }
    else
      if meta.status = QStatus.ok then
        if meta.publicKeyFound then
          { trustedPeer := true, trustedPeerPublicKey := some meta.peerPublicKey,
            issuerPublicKeys := meta.issuerPublicKeys, enforceManifest := true }
        else if meta.authMechanism = authNameECDHE_PSK ∨ meta.authMechanism = authNameSRP ∨
            meta.authMechanism = authNameLogon then
          { trustedPeer := true, trustedPeerPublicKey := none,
            issuerPublicKeys := meta.issuerPublicKeys, enforceManifest := false }
        else
          { trustedPeer := false, trustedPeerPublicKey := none,
            issuerPublicKeys := meta.issuerPublicKeys, enforceManifest := false }
      else if meta.status = QStatus.busKeyUnavailable then
        { trustedPeer := false, trustedPeerPublicKey := none,
          issuerPublicKeys := [], enforceManifest := false }
      else
        { trustedPeer := false, trustedPeerPublicKey := none,
          issuerPublicKeys := [], enforceManifest := true }
  else
    { trustedPeer := false, trustedPeerPublicKey := none,
      issuerPublicKeys := [], enforceManifest := true }

/-- `IsAuthorized(request, policy, peerState, permissionMgmtObj,
authenticated)`, lines 448–525.  When the derived right is 0 the policy
block is skipped and `authorized` keeps its initial `false`, so the
function returns `false`. -/
def IsAuthorized (request : Request) (policy : Option PermissionPolicy)
    (peerState : PeerStateData) (mgmt : MgmtObj) (meta : AuthMetadata)
    (authenticated : Bool) : Bool :=
  let right := GenRight request
  if right ≠ 0 then
    match policy with
    | none => false  -- no policy deny all
    | some pol =>
      let tr := resolveTrust peerState mgmt meta authenticated
      let res := IsPeerAuthorized request pol peerState tr.trustedPeer
        tr.trustedPeerPublicKey tr.issuerPublicKeys right
      if res.2 || !res.1 then false
      else if tr.enforceManifest then IsAuthorizedByPeerManifest request right peerState
      else true
  else
    -- authorized was initialized false and is never written on this path,
    -- so the manifest block is skipped and false is returned
    false

/-- Modelled from the spec: the well-known interface-name constants of
`AllJoynStd.h`/`DBusStd.h` are not in `src/`; spec §4.6 calls them "fixed,
well-known interface names".  The values are the standard AllJoyn/DBus
names; the evaluator only compares them for string equality. -/
def stdInterfaceNames : List String :=
  ["org.alljoyn.Bus", "org.alljoyn.Daemon", "org.alljoyn.Daemon.Debug",
   "org.alljoyn.Bus.Peer.Authentication", "org.alljoyn.Bus.Peer.Session",
   "org.allseen.Introspectable", "org.alljoyn.Bus.Peer.HeaderCompression",
   "org.freedesktop.DBus", "org.freedesktop.DBus.Peer",
   "org.freedesktop.DBus.Introspectable"]

/-- `org::freedesktop::DBus::Properties::InterfaceName`. -/
def propertiesInterfaceName : String := "org.freedesktop.DBus.Properties"
/-- `org::alljoyn::Bus::Security::Application::InterfaceName`. -/
def securityApplicationInterfaceName : String := "org.alljoyn.Bus.Security.Application"
/-- `org::alljoyn::Bus::Security::ClaimableApplication::InterfaceName`. -/
def claimableApplicationInterfaceName : String :=
  "org.alljoyn.Bus.Security.ClaimableApplication"
/-- `org::alljoyn::Bus::Security::ManagedApplication::InterfaceName`. -/
def managedApplicationInterfaceName : String :=
  "org.alljoyn.Bus.Security.ManagedApplication"

/-- `IsStdInterface(iName)`, lines 527–560. -/
def IsStdInterface (iName : String) : Bool :=
  stdInterfaceNames.any (fun n => iName = n)

/-- `IsPropertyInterface(iName)`, lines 562–568. -/
def IsPropertyInterface (iName : String) : Bool :=
  iName = propertiesInterfaceName

/-- `IsPermissionMgmtInterface(iName)`, lines 570–582. -/
def IsPermissionMgmtInterface (iName : String) : Bool :=
  iName = securityApplicationInterfaceName ||
  iName = claimableApplicationInterfaceName ||
  iName = managedApplicationInterfaceName

/-- `MESSAGE_METHOD_CALL`, `MESSAGE_SIGNAL` and the other message kinds. -/
inductive MessageType where
  | methodCall
  | signal
  | methodRet
  | errorMsg
deriving DecidableEq, Repr

/-- One message argument, as far as `ParsePropertiesMessage` unpacks it:
a string argument or an argument of any other signature. -/
inductive MsgArg where
  | strArg (s : String)
  | otherArg
deriving DecidableEq, Repr

/-- `MsgArg::Get("s", &out)`: succeeds iff the argument is a string
(otherwise the unpack reports a signature mismatch). -/
def argGetString : MsgArg → QStatus × String
  | MsgArg.strArg s => (QStatus.ok, s)
  | MsgArg.otherArg => (QStatus.busSignatureMismatch, "")

/-- The slice of `Message` that `AuthorizeMessage` and
`ParsePropertiesMessage` read: type, object path, interface, member name
and the argument list (`GetArgs`/`GetRefArgs` both yield it). -/
structure Message where
  msgType : MessageType
  objectPath : String
  interfaceName : String
  memberName : String
  args : List MsgArg
deriving DecidableEq, Repr

/-- The `Request(msg, outgoing)` constructor, lines 63–72: property flags
start false, `iName`/`mbrName` start NULL, and the member type follows the
message type. -/
def Request.fromMessage (msg : Message) (outgoing : Bool) : Request :=
  { outgoing := outgoing, propertyRequest := false, isSetProperty := false,
    objPath := msg.objectPath, iName := "", mbrName := none,
    mbrType :=
      match msg.msgType with
      | MessageType.methodCall => MemberType.methodCall
      | MessageType.signal => MemberType.signal
      | _ => MemberType.notSpecified }

/-- `Message::GetArgs("s", &out)` for the incoming `GetAll` path: unpacks
the first argument as a string; an empty argument list is a signature
mismatch. -/
def msgGetArgsString (args : List MsgArg) : QStatus × String :=
  match args with
  | [] => (QStatus.busSignatureMismatch, "")
  | a :: _ => argGetString a

/-- `ParsePropertiesMessage(request, msg)`, lines 584–658: classifies a
message on the standard Properties interface, returning the status and the
updated request. -/
def ParsePropertiesMessage (request : Request) (msg : Message) : QStatus × Request :=
  let mbrName := msg.memberName
  if strStartsWith mbrName "GetAll" then
    -- propName = NULL
    let got :=
      if request.outgoing then
        if msg.args.length < 1 then (QStatus.invalidData, "")
        else argGetString (msg.args.headD MsgArg.otherArg)
      else msgGetArgsString msg.args
    if got.1 ≠ QStatus.ok then (got.1, request)
    else (QStatus.ok,
      { request with propertyRequest := true, mbrType := MemberType.property,
                     iName := got.2, mbrName := none })
  else if strStartsWith mbrName "Get" || strStartsWith mbrName "Set" then
    if msg.args.length < 2 then (QStatus.invalidData, request)
    else
      let got0 := argGetString (msg.args.headD MsgArg.otherArg)
      if got0.1 ≠ QStatus.ok then (got0.1, request)
      else
        let got1 := argGetString ((msg.args.drop 1).headD MsgArg.otherArg)
        if got1.1 ≠ QStatus.ok then (got1.1, request)
        else (QStatus.ok,
          { request with propertyRequest := true, mbrType := MemberType.property,
                         isSetProperty := strStartsWith mbrName "Set",
                         iName := got0.2, mbrName := some got1.2 })
  else if strStartsWith mbrName "PropertiesChanged" then
    if msg.args.length < 1 then (QStatus.invalidData, request)
    else
      let got := argGetString (msg.args.headD MsgArg.otherArg)
      if got.1 ≠ QStatus.ok then (got.1, request)
      else (QStatus.ok,
        { request with propertyRequest := true, mbrType := MemberType.signal,
                       iName := got.2, mbrName := some "" })
  else (QStatus.fail, request)

/-- The `Claim` capability check of `AuthorizePermissionMgmt`,
lines 709–740: for a non-self claim the peer's negotiated auth suite must
be enabled in the device's claim capabilities. -/
def claimSuiteAllowed (peerState : PeerStateData) (mgmt : MgmtObj) : Bool :=
  if mgmt.getClaimCapabilitiesStatus ≠ QStatus.ok then false
  else if peerState.authSuite = AUTH_SUITE_ECDHE_NULL then
    (mgmt.claimCapabilities &&& CAPABLE_ECDHE_NULL) == CAPABLE_ECDHE_NULL
  else if peerState.authSuite = AUTH_SUITE_ECDHE_PSK then
    (mgmt.claimCapabilities &&& CAPABLE_ECDHE_PSK) == CAPABLE_ECDHE_PSK
  else if peerState.authSuite = AUTH_SUITE_ECDHE_SPEKE then
    (mgmt.claimCapabilities &&& CAPABLE_ECDHE_SPEKE) == CAPABLE_ECDHE_SPEKE
  else if peerState.authSuite = AUTH_SUITE_ECDHE_ECDSA then
    (mgmt.claimCapabilities &&& CAPABLE_ECDHE_ECDSA) == CAPABLE_ECDHE_ECDSA
  else false

/-- `PermissionManager::AuthorizePermissionMgmt(outgoing, iName, mbrName,
authorized, peerState)`, lines 687–777.  Returns `(handled, authorized)`;
`mbrName = none` models the NULL member-name pointer check `!mbrName`. -/
def AuthorizePermissionMgmt (outgoing : Bool) (iName : String) (mbrName : Option String)
    (peerState : PeerStateData) (mgmt : MgmtObj) : Bool × Bool :=
  if outgoing then (true, true)  -- always allow send action
  else
    match mbrName with
    | none => (false, false)  -- not handled
    | some mbr =>
      if iName = claimableApplicationInterfaceName then
        if strStartsWith mbr "Version" then (true, true)
        else if strStartsWith mbr "Claim" then
          -- only allowed when there is no trust anchor
          let auth0 := !mgmt.hasTrustAnchors
          let auth :=
            if auth0 && !peerState.isLocalPeer then claimSuiteAllowed peerState mgmt
            else auth0
          (true, auth)
        else (false, false)
      else if iName = managedApplicationInterfaceName then
        if !mgmt.hasTrustAnchors then (true, false)  -- not claimed
        else if strStartsWith mbr "Version" then (true, true)
        else (false, false)
      else if iName = securityApplicationInterfaceName then
        if strStartsWith mbr "Version" || strStartsWith mbr "ApplicationState" then (true, true)
        else if !mgmt.hasTrustAnchors &&
            (strStartsWith mbr "ManifestTemplateDigest" || strStartsWith mbr "EccPublicKey" ||
             strStartsWith mbr "ManufacturerCertificate" || strStartsWith mbr "ManifestTemplate" ||
             strStartsWith mbr "ClaimCapabilities" ||
             strStartsWith mbr "ClaimCapabilityAdditionalInfo") then (true, true)
        else (false, false)
      else (false, false)

/-- The request-classification step of `AuthorizeMessage`, lines 794–803:
messages on the Properties interface go through `ParsePropertiesMessage`,
all others take interface and member straight from the message. -/
def classifyRequest (outgoing : Bool) (msg : Message) : QStatus × Request :=
  let request := Request.fromMessage msg outgoing
  if IsPropertyInterface msg.interfaceName then ParsePropertiesMessage request msg
  else (QStatus.ok,
    { request with iName := msg.interfaceName, mbrName := some msg.memberName })

/-- `PermissionManager::AuthorizeMessage(outgoing, msg, peerState,
authenticated)`, lines 779–838.  The permission-management object and the
local policy are the `PermissionManager`'s state (`permissionMgmtObj`,
`GetPolicy()`); the peer auth metadata feeds the trust resolution inside
`IsAuthorized`. -/
def AuthorizeMessage (outgoing : Bool) (msg : Message) (peerState : PeerStateData)
    (mgmtObj : Option MgmtObj) (policy : Option PermissionPolicy)
    (meta : AuthMetadata) (authenticated : Bool) : QStatus :=
  -- only checks for method call and signal
  if msg.msgType ≠ MessageType.methodCall ∧ msg.msgType ≠ MessageType.signal then QStatus.ok
  -- skip the AllJoyn Std interfaces
  else if IsStdInterface msg.interfaceName then QStatus.ok
  else
    let cls := classifyRequest outgoing msg
    if cls.1 ≠ QStatus.ok then cls.1
    else
      let request := cls.2
      match mgmtObj with
      | none => QStatus.permissionDenied  -- no permission management object
      | some mgmt =>
        let isPermissionMgmt := IsPermissionMgmtInterface request.iName
        let gate := AuthorizePermissionMgmt outgoing request.iName request.mbrName
          peerState mgmt
        if isPermissionMgmt && gate.1 then
          if gate.2 then QStatus.ok else QStatus.permissionDenied
        else if !mgmt.hasTrustAnchors then
          -- app not claimed: no enforcement unless it is a method call of
          -- one of the permission management interfaces
          if isPermissionMgmt && (request.mbrType = MemberType.methodCall) then
            QStatus.permissionDenied
          else QStatus.ok
        else if IsAuthorized request policy peerState mgmt meta authenticated then QStatus.ok
        else QStatus.permissionDenied

/-!  Derived, order-free descriptions of the evaluation, used to state the
deny-overrides and order-independence properties.  Each re-invokes the
embedded matcher on every rule with a fresh `denied := false` flag. -/

/-- One rule of one manifest/policy scan "signals explicit deny": the
matcher invocation sets the `denied` flag. -/
def ruleDenies (request : Request) (requiredAuth : Nat) (scanForDenied strict : Bool)
    (r : Rule) : Bool :=
  (IsRuleMatched r request requiredAuth scanForDenied false strict).2

/-- One rule matches (the matcher returns true on a fresh flag). -/
def ruleMatches (request : Request) (requiredAuth : Nat) (scanForDenied strict : Bool)
    (r : Rule) : Bool :=
  (IsRuleMatched r request requiredAuth scanForDenied false strict).1

/-- An ACL the peer qualifies for contains a rule that signals explicit
deny, the deny scan being on exactly when the peer qualified by exact
public key. -/
def aclDenies (request : Request) (peerState : PeerStateData) (trustedPeer : Bool)
    (peerPublicKey : Option Nat) (issuerChain : List Nat) (requiredAuth : Nat)
    (acl : Acl) : Bool :=
  let q := IsPeerQualifiedForAcl acl peerState trustedPeer peerPublicKey issuerChain
  q.1 && acl.rules.any (ruleDenies request requiredAuth q.2 request.outgoing)

/-- An ACL the peer qualifies for contains a rule that matches. -/
def aclMatches (request : Request) (peerState : PeerStateData) (trustedPeer : Bool)
    (peerPublicKey : Option Nat) (issuerChain : List Nat) (requiredAuth : Nat)
    (acl : Acl) : Bool :=
  let q := IsPeerQualifiedForAcl acl peerState trustedPeer peerPublicKey issuerChain
  q.1 && acl.rules.any (ruleMatches request requiredAuth q.2 request.outgoing)

/-- Some applicable rule of the policy signals explicit deny. -/
def policyDenied (request : Request) (peerState : PeerStateData) (trustedPeer : Bool)
    (peerPublicKey : Option Nat) (issuerChain : List Nat) (requiredAuth : Nat)
    (pol : PermissionPolicy) : Bool :=
  pol.acls.any (aclDenies request peerState trustedPeer peerPublicKey issuerChain requiredAuth)

/-- Some ACL the peer qualifies for evaluates to allowed. -/
def policyMatched (request : Request) (peerState : PeerStateData) (trustedPeer : Bool)
    (peerPublicKey : Option Nat) (issuerChain : List Nat) (requiredAuth : Nat)
    (pol : PermissionPolicy) : Bool :=
  pol.acls.any (aclMatches request peerState trustedPeer peerPublicKey issuerChain requiredAuth)

/-- Some manifest rule of the peer matches the request. -/
def manifestMatched (request : Request) (requiredAuth : Nat) (peerState : PeerStateData) : Bool :=
  peerState.manifests.any fun mf =>
    mf.any (ruleMatches request requiredAuth false request.outgoing)

/-- Some manifest rule of the peer signals explicit deny under the
manifest scan (which runs with `scanForDenied = false`). -/
def manifestDenySignal (request : Request) (requiredAuth : Nat)
    (peerState : PeerStateData) : Bool :=
  peerState.manifests.any fun mf =>
    mf.any (ruleDenies request requiredAuth false request.outgoing)

/-! Helper lemmas about the matcher loops. -/

/-- A permutation of a list leaves `List.any` unchanged. -/
lemma any_eq_of_perm {α : Type} {l₁ l₂ : List α} (f : α → Bool) (h : List.Perm l₁ l₂) :
    l₁.any f = l₂.any f := by
  cases h1 : l₁.any f <;> cases h2 : l₂.any f <;> try rfl
  · rw [List.any_eq_false] at h1
    rw [List.any_eq_true] at h2
    obtain ⟨x, hx, hpx⟩ := h2
    exact absurd hpx (by simpa using h1 x (h.mem_iff.mpr hx))
  · rw [List.any_eq_false] at h2
    rw [List.any_eq_true] at h1
    obtain ⟨x, hx, hpx⟩ := h1
    exact absurd hpx (by simpa using h2 x (h.mem_iff.mp hx))

/-- `List.any` is equal across `Forall₂`-related lists whose related
elements have equal predicate values. -/
lemma any_eq_of_forall2 {α : Type} {l₁ l₂ : List α} {R : α → α → Prop} (f : α → Bool)
    (h : List.Forall₂ R l₁ l₂) (hf : ∀ a b, R a b → f a = f b) : l₁.any f = l₂.any f := by
  induction h with
  | nil => rfl
  | cons hR _ ih => simp [List.any_cons, hf _ _ hR, ih]

/-- With the deny scan off, the GetAll member loop leaves `denied`
untouched. -/
lemma getAllMemberLoop_denied_of_not_scan (auth : Nat) (strict : Bool) :
    ∀ (ms : List Member) (a d : Bool), (getAllMemberLoop auth false strict ms a d).2 = d := by
  intro ms
  induction ms with
  | nil => intro a d; rfl
  | cons m ms ih =>
    intro a d
    simp only [getAllMemberLoop, Bool.false_and, Bool.not_false, Bool.and_true]
    repeat' split
    all_goals first
      | rfl
      | exact ih _ _
      | simp_all

/-- With the deny scan off, the named member loop leaves `denied`
untouched. -/
lemma namedMemberLoop_denied_of_not_scan (mbr : String) (mt : MemberType) (auth : Nat) :
    ∀ (ms : List Member) (a d : Bool), (namedMemberLoop mbr mt auth false ms a d).2 = d := by
  intro ms
  induction ms with
  | nil => intro a d; rfl
  | cons m ms ih =>
    intro a d
    simp only [namedMemberLoop, Bool.false_and, Bool.not_false, Bool.and_true]
    repeat' split
    all_goals first
      | rfl
      | exact ih _ _
      | simp_all

/-- `IsRuleMatched` with `scanForDenied = false` leaves `denied`
untouched. -/
lemma isRuleMatched_denied_of_not_scan (r : Rule) (request : Request) (auth : Nat)
    (d strict : Bool) : (IsRuleMatched r request auth false d strict).2 = d := by
  simp only [IsRuleMatched, Bool.false_and]
  repeat' split
  all_goals first
    | rfl
    | exact getAllMemberLoop_denied_of_not_scan _ _ _ _ _
    | exact namedMemberLoop_denied_of_not_scan _ _ _ _ _ _

/-- `IsRuleMatched` on a rule whose object path or interface name is not
the literal `"*"` leaves `denied` untouched, whatever the scan flag. -/
lemma isRuleMatched_denied_of_not_star (r : Rule) (request : Request) (auth : Nat)
    (sc d strict : Bool) (h : r.objPath ≠ "*" ∨ r.interfaceName ≠ "*") :
    (IsRuleMatched r request auth sc d strict).2 = d := by
  have hscan : (sc && decide (r.objPath = "*") && decide (r.interfaceName = "*")) = false := by
    rcases h with h | h <;> simp [h]
  simp only [IsRuleMatched, hscan]
  repeat' split
  all_goals first
    | rfl
    | exact getAllMemberLoop_denied_of_not_scan _ _ _ _ _
    | exact namedMemberLoop_denied_of_not_scan _ _ _ _ _ _

/-- If the GetAll member loop reports `denied` (from a fresh flag), the
scan was on and some member has the wildcard name with action mask 0; and
the loop's return value is `false`. -/
lemma getAllMemberLoop_denied_imp (auth : Nat) (scan strict : Bool) :
    ∀ (ms : List Member) (a : Bool), (getAllMemberLoop auth scan strict ms a false).2 = true →
      scan = true ∧ (∃ m ∈ ms, m.memberName = "*" ∧ m.actionMask = 0) ∧
      getAllMemberLoop auth scan strict ms a false = (false, true) := by
  intro ms
  induction ms with
  | nil => simp [getAllMemberLoop]
  | cons m ms ih =>
    intro a
    have step : ∀ (a' : Bool), (getAllMemberLoop auth scan strict ms a' false).2 = true →
        scan = true ∧ (∃ m' ∈ m :: ms, m'.memberName = "*" ∧ m'.actionMask = 0) ∧
        getAllMemberLoop auth scan strict ms a' false = (false, true) := by
      intro a' h
      obtain ⟨h1, ⟨m', hm', h2⟩, h3⟩ := ih a' h
      exact ⟨h1, ⟨m', List.mem_cons_of_mem _ hm', h2⟩, h3⟩
    by_cases c1 : m.memberName = ""
    · simpa only [getAllMemberLoop, if_pos c1] using step a
    · by_cases c2 : m.memberName = "*"
      · by_cases c3 : (scan && IsActionDenied m.actionMask) = true
        · have hscan : scan = true := ((Bool.and_eq_true _ _).mp c3).1
          have hmask : m.actionMask = 0 := by
            have := ((Bool.and_eq_true _ _).mp c3).2
            simpa [IsActionDenied] using this
          simp only [getAllMemberLoop, if_neg c1, if_pos c2, if_pos c3]
          exact fun _ => ⟨hscan, ⟨m, List.mem_cons_self _ _, c2, hmask⟩, by trivial⟩
        · by_cases c4 : m.memberType ≠ MemberType.property ∧ m.memberType ≠ MemberType.notSpecified
          · simpa only [getAllMemberLoop, if_neg c1, if_pos c2, if_neg c3, if_pos c4]
              using step a
          · by_cases c5 : ((a || IsActionAllowed m.actionMask auth) && !scan) = true
            · simp only [getAllMemberLoop, if_neg c1, if_pos c2, if_neg c3, if_neg c4, if_pos c5]
              intro h; simp at h
            · simpa only [getAllMemberLoop, if_neg c1, if_pos c2, if_neg c3, if_neg c4,
                if_neg c5] using step _
      · by_cases c5 : ((if !strict then true else a) && !scan) = true
        · simp only [getAllMemberLoop, if_neg c1, if_neg c2, if_pos c5]
          intro h; simp at h
        · simpa only [getAllMemberLoop, if_neg c1, if_neg c2, if_neg c5] using step _

/-- If the named member loop reports `denied` (from a fresh flag), the
scan was on and some member has the wildcard name with action mask 0; and
the loop's return value is `false`. -/
lemma namedMemberLoop_denied_imp (mbr : String) (mt : MemberType) (auth : Nat) (scan : Bool) :
    ∀ (ms : List Member) (a : Bool), (namedMemberLoop mbr mt auth scan ms a false).2 = true →
      scan = true ∧ (∃ m ∈ ms, m.memberName = "*" ∧ m.actionMask = 0) ∧
      namedMemberLoop mbr mt auth scan ms a false = (false, true) := by
  intro ms
  induction ms with
  | nil => simp [namedMemberLoop]
  | cons m ms ih =>
    intro a
    have step : ∀ (a' : Bool), (namedMemberLoop mbr mt auth scan ms a' false).2 = true →
        scan = true ∧ (∃ m' ∈ m :: ms, m'.memberName = "*" ∧ m'.actionMask = 0) ∧
        namedMemberLoop mbr mt auth scan ms a' false = (false, true) := by
      intro a' h
      obtain ⟨h1, ⟨m', hm', h2⟩, h3⟩ := ih a' h
      exact ⟨h1, ⟨m', List.mem_cons_of_mem _ hm', h2⟩, h3⟩
    by_cases c1 : m.memberName = ""
    · simpa only [namedMemberLoop, if_pos c1] using step a
    · by_cases c2 : ¬(m.memberName = mbr ∨ MatchesPfx mbr m.memberName = true)
      · simpa only [namedMemberLoop, if_neg c1, if_pos c2] using step a
      · by_cases c3 : m.memberType ≠ MemberType.notSpecified ∧ mt ≠ m.memberType
        · simpa only [namedMemberLoop, if_neg c1, if_neg c2, if_pos c3] using step a
        · by_cases c4 : (scan && (m.memberName = "*") && IsActionDenied m.actionMask) = true
          · have hscan : scan = true :=
              ((Bool.and_eq_true _ _).mp ((Bool.and_eq_true _ _).mp c4).1).1
            have hstar : m.memberName = "*" := by
              have := ((Bool.and_eq_true _ _).mp ((Bool.and_eq_true _ _).mp c4).1).2
              simpa using this
            have hmask : m.actionMask = 0 := by
              have := ((Bool.and_eq_true _ _).mp c4).2
              simpa [IsActionDenied] using this
            simp only [namedMemberLoop, if_neg c1, if_neg c2, if_neg c3, if_pos c4]
            exact fun _ => ⟨hscan, ⟨m, List.mem_cons_self _ _, hstar, hmask⟩, by trivial⟩
          · by_cases c5 : ((a || IsActionAllowed m.actionMask auth) && !scan) = true
            · simp only [namedMemberLoop, if_neg c1, if_neg c2, if_neg c3, if_neg c4, if_pos c5]
              intro h; simp at h
            · simpa only [namedMemberLoop, if_neg c1, if_neg c2, if_neg c3, if_neg c4,
                if_neg c5] using step _

/-- Every exit of the GetAll member loop either leaves `denied` untouched
or is the explicit-deny exit `(false, true)`. -/
lemma getAllMemberLoop_denied_cases (auth : Nat) (scan strict : Bool) :
    ∀ (ms : List Member) (a d : Bool), (getAllMemberLoop auth scan strict ms a d).2 = d ∨
      getAllMemberLoop auth scan strict ms a d = (false, true) := by
  intro ms
  induction ms with
  | nil => intro a d; left; rfl
  | cons m ms ih =>
    intro a d
    simp only [getAllMemberLoop]
    repeat' split
    all_goals first
      | (left; rfl)
      | (right; rfl)
      | exact ih _ _

/-- Every exit of the named member loop either leaves `denied` untouched
or is the explicit-deny exit `(false, true)`. -/
lemma namedMemberLoop_denied_cases (mbr : String) (mt : MemberType) (auth : Nat)
    (scan : Bool) :
    ∀ (ms : List Member) (a d : Bool), (namedMemberLoop mbr mt auth scan ms a d).2 = d ∨
      namedMemberLoop mbr mt auth scan ms a d = (false, true) := by
  intro ms
  induction ms with
  | nil => intro a d; left; rfl
  | cons m ms ih =>
    intro a d
    simp only [namedMemberLoop]
    repeat' split
    all_goals first
      | (left; rfl)
      | (right; rfl)
      | exact ih _ _

/-- Every exit of `IsRuleMatched` either leaves `denied` untouched or is
the explicit-deny exit `(false, true)`. -/
lemma isRuleMatched_denied_cases (r : Rule) (request : Request) (auth : Nat)
    (sc d strict : Bool) :
    (IsRuleMatched r request auth sc d strict).2 = d ∨
      IsRuleMatched r request auth sc d strict = (false, true) := by
  unfold IsRuleMatched
  repeat' split
  all_goals first
    | (left; rfl)
    | exact getAllMemberLoop_denied_cases _ _ _ _ _ _
    | exact namedMemberLoop_denied_cases _ _ _ _ _ _ _

/-- If `IsRuleMatched` reports `denied` from a fresh flag, the scan input
was on, the rule's object path and interface name are both the literal
`"*"`, some member has name `"*"` with action mask 0, and the returned
pair is `(false, true)`. -/
lemma isRuleMatched_denied_imp (r : Rule) (request : Request) (auth : Nat)
    (sc strict : Bool) (h : (IsRuleMatched r request auth sc false strict).2 = true) :
    sc = true ∧ r.objPath = "*" ∧ r.interfaceName = "*" ∧
    (∃ m ∈ r.members, m.memberName = "*" ∧ m.actionMask = 0) ∧
    IsRuleMatched r request auth sc false strict = (false, true) := by
  have hsc : sc = true := by
    cases hsc : sc
    · rw [hsc, isRuleMatched_denied_of_not_scan] at h
      exact absurd h (by simp)
    · rfl
  have hstar : r.objPath = "*" ∧ r.interfaceName = "*" := by
    by_cases hstar : r.objPath = "*" ∧ r.interfaceName = "*"
    · exact hstar
    · rw [isRuleMatched_denied_of_not_star r request auth sc false strict (by tauto)] at h
      exact absurd h (by simp)
  have hexists : ∃ m ∈ r.members, m.memberName = "*" ∧ m.actionMask = 0 := by
    unfold IsRuleMatched at h
    split at h
    · simp at h
    split at h
    · simp at h
    split at h
    · simp at h
    split at h
    · simp at h
    split at h
    · simp at h
    split at h
    · split at h
      · simp at h
      · exact (getAllMemberLoop_denied_imp _ _ _ _ _ h).2.1
    · exact (namedMemberLoop_denied_imp _ _ _ _ _ _ h).2.1
  have heq : IsRuleMatched r request auth sc false strict = (false, true) := by
    refine (isRuleMatched_denied_cases r request auth sc false strict).resolve_left ?_
    rw [h]
    simp
  exact ⟨hsc, hstar.1, hstar.2, hexists, heq⟩

/-- The final `denied` flag of the ACL rule loop (from a fresh flag) is
exactly "some rule signals explicit deny". -/
lemma aclRuleLoop_denied_eq_any (request : Request) (auth : Nat) (sc strict : Bool) :
    ∀ (rs : List Rule) (a : Bool), (aclRuleLoop request auth sc strict rs a false).2 =
      rs.any (ruleDenies request auth sc strict) := by
  intro rs
  induction rs with
  | nil => intro a; simp [aclRuleLoop]
  | cons r rs ih =>
    intro a
    simp only [aclRuleLoop, List.any_cons]
    cases hd : (IsRuleMatched r request auth sc false strict).2
    · by_cases h1 : (IsRuleMatched r request auth sc false strict).1 = true
      · simp [h1, hd, ih, ruleDenies]
      · simp only [Bool.not_eq_true] at h1
        simp [h1, hd, ih, ruleDenies]
    · have := (isRuleMatched_denied_imp r request auth sc strict hd).2.2.2.2
      simp [this, ruleDenies, hd]

/-- When no rule of the list signals explicit deny, the ACL rule loop is a
plain OR of the per-rule match results. -/
lemma aclRuleLoop_of_no_denied (request : Request) (auth : Nat) (sc strict : Bool) :
    ∀ (rs : List Rule), (∀ r ∈ rs, ruleDenies request auth sc strict r = false) →
      ∀ (a : Bool), aclRuleLoop request auth sc strict rs a false =
        (a || rs.any (ruleMatches request auth sc strict), false) := by
  intro rs
  induction rs with
  | nil => intro _ a; simp [aclRuleLoop]
  | cons r rs ih =>
    intro hno a
    have hd : (IsRuleMatched r request auth sc false strict).2 = false :=
      hno r (List.mem_cons_self _ _)
    have hrest : ∀ r' ∈ rs, ruleDenies request auth sc strict r' = false :=
      fun r' hr' => hno r' (List.mem_cons_of_mem _ hr')
    simp only [aclRuleLoop, List.any_cons]
    by_cases h1 : (IsRuleMatched r request auth sc false strict).1 = true
    · simp [h1, hd, ih hrest, ruleMatches]
    · simp only [Bool.not_eq_true] at h1
      simp [h1, hd, ih hrest, ruleMatches]

/-- The final `denied` flag of the ACL loop of `IsPeerAuthorized` (from a
fresh flag) is exactly "some qualified ACL contains a rule that signals
explicit deny". -/
lemma peerAclsLoop_denied_eq_any (request : Request) (ps : PeerStateData) (t : Bool)
    (k : Option Nat) (ch : List Nat) (auth : Nat) :
    ∀ (acls : List Acl) (a : Bool), (peerAclsLoop request ps t k ch auth acls a false).2 =
      acls.any (aclDenies request ps t k ch auth) := by
  intro acls
  induction acls with
  | nil => intro a; simp [peerAclsLoop]
  | cons acl acls ih =>
    intro a
    simp only [peerAclsLoop, List.any_cons]
    cases hq : (IsPeerQualifiedForAcl acl ps t k ch).1
    · simp [hq, ih, aclDenies]
    · have hd : (IsPolicyAclMatched acl request auth
          (IsPeerQualifiedForAcl acl ps t k ch).2 false).2 =
          acl.rules.any (ruleDenies request auth
            (IsPeerQualifiedForAcl acl ps t k ch).2 request.outgoing) :=
        aclRuleLoop_denied_eq_any _ _ _ _ _ _
      cases hany : acl.rules.any (ruleDenies request auth
          (IsPeerQualifiedForAcl acl ps t k ch).2 request.outgoing)
      · rw [hany] at hd
        simp [hq, hd, hany, ih, aclDenies]
      · rw [hany] at hd
        simp [hq, hd, hany, aclDenies]

/-- When no qualified ACL signals explicit deny, `IsPeerAuthorized`'s loop
is a plain OR of the per-ACL match results. -/
lemma peerAclsLoop_of_no_denied (request : Request) (ps : PeerStateData) (t : Bool)
    (k : Option Nat) (ch : List Nat) (auth : Nat) :
    ∀ (acls : List Acl), (∀ acl ∈ acls, aclDenies request ps t k ch auth acl = false) →
      ∀ (a : Bool), peerAclsLoop request ps t k ch auth acls a false =
        (a || acls.any (aclMatches request ps t k ch auth), false) := by
  intro acls
  induction acls with
  | nil => intro _ a; simp [peerAclsLoop]
  | cons acl acls ih =>
    intro hno a
    have hrest : ∀ acl' ∈ acls, aclDenies request ps t k ch auth acl' = false :=
      fun acl' h => hno acl' (List.mem_cons_of_mem _ h)
    simp only [peerAclsLoop, List.any_cons]
    cases hq : (IsPeerQualifiedForAcl acl ps t k ch).1
    · simp [hq, ih hrest, aclMatches]
    · have hany : acl.rules.any (ruleDenies request auth
          (IsPeerQualifiedForAcl acl ps t k ch).2 request.outgoing) = false := by
        have := hno acl (List.mem_cons_self _ _)
        simpa [aclDenies, hq] using this
      have hres : IsPolicyAclMatched acl request auth
          (IsPeerQualifiedForAcl acl ps t k ch).2 false =
          (acl.rules.any (ruleMatches request auth
            (IsPeerQualifiedForAcl acl ps t k ch).2 request.outgoing), false) := by
        have := aclRuleLoop_of_no_denied request auth
          (IsPeerQualifiedForAcl acl ps t k ch).2 request.outgoing acl.rules
          (by
            intro r hr
            have h1 := List.any_eq_false.mp hany r hr
            simpa using h1) false
        simpa [IsPolicyAclMatched] using this
      cases hm : acl.rules.any (ruleMatches request auth
          (IsPeerQualifiedForAcl acl ps t k ch).2 request.outgoing)
      · rw [hm] at hres
        simp [hq, hres, hm, ih hrest, aclMatches]
      · rw [hm] at hres
        simp [hq, hres, hm, ih hrest, aclMatches]

/-- The `denied` output of `IsPeerAuthorized` is exactly `policyDenied`. -/
lemma isPeerAuthorized_denied (request : Request) (pol : PermissionPolicy)
    (ps : PeerStateData) (t : Bool) (k : Option Nat) (ch : List Nat) (auth : Nat) :
    (IsPeerAuthorized request pol ps t k ch auth).2 =
      policyDenied request ps t k ch auth pol :=
  peerAclsLoop_denied_eq_any request ps t k ch auth pol.acls false

/-- Without any explicit deny, `IsPeerAuthorized` returns exactly
`(policyMatched, false)`. -/
lemma isPeerAuthorized_of_no_denied (request : Request) (pol : PermissionPolicy)
    (ps : PeerStateData) (t : Bool) (k : Option Nat) (ch : List Nat) (auth : Nat)
    (h : policyDenied request ps t k ch auth pol = false) :
    IsPeerAuthorized request pol ps t k ch auth =
      (policyMatched request ps t k ch auth pol, false) := by
  have hno : ∀ acl ∈ pol.acls, aclDenies request ps t k ch auth acl = false := by
    intro acl hacl
    have h1 := List.any_eq_false.mp h acl hacl
    simpa using h1
  simpa [IsPeerAuthorized, policyMatched]
    using peerAclsLoop_of_no_denied request ps t k ch auth pol.acls hno false

/-- The manifest rule loop never aborts (its scan flag is hard-coded off)
and is a plain OR of the per-rule match results. -/
lemma manifestRuleLoop_eq (request : Request) (auth : Nat) (strict : Bool) :
    ∀ (rs : List Rule) (a : Bool), manifestRuleLoop request auth strict rs a =
      (a || rs.any (ruleMatches request auth false strict), false) := by
  intro rs
  induction rs with
  | nil => intro a; simp [manifestRuleLoop]
  | cons r rs ih =>
    intro a
    have hd : (IsRuleMatched r request auth false false strict).2 = false :=
      isRuleMatched_denied_of_not_scan _ _ _ _ _
    simp only [manifestRuleLoop, List.any_cons]
    by_cases h1 : (IsRuleMatched r request auth false false strict).1 = true
    · simp [h1, hd, ih, ruleMatches]
    · simp only [Bool.not_eq_true] at h1
      simp [h1, hd, ih, ruleMatches]

/-- The manifest evaluator is the OR, over all manifests and rules, of the
per-rule match results. -/
lemma isAuthorizedByPeerManifest_eq (request : Request) (auth : Nat)
    (ps : PeerStateData) :
    IsAuthorizedByPeerManifest request auth ps = manifestMatched request auth ps := by
  suffices hloop : ∀ (mfs : List (List Rule)) (a : Bool),
      manifestsLoop request auth mfs a =
        (a || mfs.any fun mf => mf.any (ruleMatches request auth false request.outgoing)) by
    simpa [IsAuthorizedByPeerManifest, manifestMatched] using hloop ps.manifests false
  intro mfs
  induction mfs with
  | nil => intro a; simp [manifestsLoop]
  | cons mf mfs ih =>
    intro a
    simp only [manifestsLoop, manifestRuleLoop_eq, List.any_cons]
    simp [ih, Bool.or_assoc]

/-- Because the manifest scan runs with `scanForDenied = false`, no
manifest rule ever signals explicit deny. -/
lemma manifestDenySignal_false (request : Request) (auth : Nat) (ps : PeerStateData) :
    manifestDenySignal request auth ps = false := by
  simp [manifestDenySignal, ruleDenies, isRuleMatched_denied_of_not_scan]

/-- Closed form of `IsAuthorized` with a policy present: the derived right
must be non-zero, no applicable rule may signal deny, some qualified ACL
must match, and, when enforced, some manifest rule must match. -/
lemma isAuthorized_characterization (request : Request) (pol : PermissionPolicy)
    (ps : PeerStateData) (mgmt : MgmtObj) (meta : AuthMetadata) (authd : Bool) :
    IsAuthorized request (some pol) ps mgmt meta authd =
      ((decide (GenRight request ≠ 0)) &&
       !(policyDenied request ps (resolveTrust ps mgmt meta authd).trustedPeer
          (resolveTrust ps mgmt meta authd).trustedPeerPublicKey
          (resolveTrust ps mgmt meta authd).issuerPublicKeys (GenRight request) pol) &&
       policyMatched request ps (resolveTrust ps mgmt meta authd).trustedPeer
          (resolveTrust ps mgmt meta authd).trustedPeerPublicKey
          (resolveTrust ps mgmt meta authd).issuerPublicKeys (GenRight request) pol &&
       (!(resolveTrust ps mgmt meta authd).enforceManifest ||
          manifestMatched request (GenRight request) ps)) := by
  by_cases hr : GenRight request = 0
  · simp [IsAuthorized, hr]
  · cases hden : policyDenied request ps (resolveTrust ps mgmt meta authd).trustedPeer
        (resolveTrust ps mgmt meta authd).trustedPeerPublicKey
        (resolveTrust ps mgmt meta authd).issuerPublicKeys (GenRight request) pol
    · have hres := isPeerAuthorized_of_no_denied request pol ps
        (resolveTrust ps mgmt meta authd).trustedPeer
        (resolveTrust ps mgmt meta authd).trustedPeerPublicKey
        (resolveTrust ps mgmt meta authd).issuerPublicKeys (GenRight request) hden
      simp only [IsAuthorized, if_pos hr, hres, hden]
      cases hm : policyMatched request ps (resolveTrust ps mgmt meta authd).trustedPeer
          (resolveTrust ps mgmt meta authd).trustedPeerPublicKey
          (resolveTrust ps mgmt meta authd).issuerPublicKeys (GenRight request) pol
      · simp [hr]
      · cases he : (resolveTrust ps mgmt meta authd).enforceManifest
        · simp [hr, he]
        · simp [hr, he, isAuthorizedByPeerManifest_eq]
    · have hres := isPeerAuthorized_denied request pol ps
        (resolveTrust ps mgmt meta authd).trustedPeer
        (resolveTrust ps mgmt meta authd).trustedPeerPublicKey
        (resolveTrust ps mgmt meta authd).issuerPublicKeys (GenRight request)
      rw [hden] at hres
      simp [IsAuthorized, if_pos hr, hres, hden]

/-- Two ACLs that differ only in the order of their rules. -/
def AclEquivUpToRuleOrder (a b : Acl) : Prop :=
  a.peers = b.peers ∧ List.Perm a.rules b.rules

/-- Two policies that differ only in the order of their ACLs and in the
order of the rules inside each ACL. -/
def PolicyEquivUpToOrder (p q : PermissionPolicy) : Prop :=
  ∃ l, List.Forall₂ AclEquivUpToRuleOrder p.acls l ∧ List.Perm l q.acls

/-- Two manifest sets that differ only in the order of the manifests and
of the rules inside each manifest. -/
def ManifestsEquivUpToOrder (m₁ m₂ : List (List Rule)) : Prop :=
  ∃ l, List.Forall₂ (fun a b => List.Perm a b) m₁ l ∧ List.Perm l m₂

/-- ACLs equal up to rule order have the same deny/match verdicts. -/
lemma aclPred_eq_of_equiv (request : Request) (ps : PeerStateData) (t : Bool)
    (k : Option Nat) (ch : List Nat) (auth : Nat) {a b : Acl}
    (h : AclEquivUpToRuleOrder a b) :
    aclDenies request ps t k ch auth a = aclDenies request ps t k ch auth b ∧
    aclMatches request ps t k ch auth a = aclMatches request ps t k ch auth b := by
  obtain ⟨hpeers, hrules⟩ := h
  have hq : IsPeerQualifiedForAcl a ps t k ch = IsPeerQualifiedForAcl b ps t k ch := by
    simp [IsPeerQualifiedForAcl, hpeers]
  constructor
  · simp only [aclDenies, hq]
    rw [any_eq_of_perm _ hrules]
  · simp only [aclMatches, hq]
    rw [any_eq_of_perm _ hrules]

/-- `policyDenied` and `policyMatched` are invariant under reordering of
ACLs and of rules inside ACLs. -/
lemma policyPred_eq_of_equiv (request : Request) (ps : PeerStateData) (t : Bool)
    (k : Option Nat) (ch : List Nat) (auth : Nat) {p q : PermissionPolicy}
    (h : PolicyEquivUpToOrder p q) :
    policyDenied request ps t k ch auth p = policyDenied request ps t k ch auth q ∧
    policyMatched request ps t k ch auth p = policyMatched request ps t k ch auth q := by
  obtain ⟨l, hf, hp⟩ := h
  constructor
  · calc p.acls.any (aclDenies request ps t k ch auth)
        = l.any (aclDenies request ps t k ch auth) :=
          any_eq_of_forall2 _ hf fun a b hab => (aclPred_eq_of_equiv request ps t k ch auth hab).1
      _ = q.acls.any (aclDenies request ps t k ch auth) := any_eq_of_perm _ hp
  · calc p.acls.any (aclMatches request ps t k ch auth)
        = l.any (aclMatches request ps t k ch auth) :=
          any_eq_of_forall2 _ hf fun a b hab => (aclPred_eq_of_equiv request ps t k ch auth hab).2
      _ = q.acls.any (aclMatches request ps t k ch auth) := any_eq_of_perm _ hp

/-- `manifestMatched` is invariant under reordering of manifests and of
rules inside manifests. -/
lemma manifestMatched_eq_of_equiv (request : Request) (auth : Nat) (ps : PeerStateData)
    {m₂ : List (List Rule)} (h : ManifestsEquivUpToOrder ps.manifests m₂) :
    manifestMatched request auth ps =
      manifestMatched request auth { ps with manifests := m₂ } := by
  obtain ⟨l, hf, hp⟩ := h
  show ps.manifests.any _ = m₂.any _
  calc ps.manifests.any (fun mf => mf.any (ruleMatches request auth false request.outgoing))
      = l.any (fun mf => mf.any (ruleMatches request auth false request.outgoing)) :=
        any_eq_of_forall2 _ hf fun a b hab => any_eq_of_perm _ hab
    _ = m₂.any (fun mf => mf.any (ruleMatches request auth false request.outgoing)) :=
        any_eq_of_perm _ hp

/-- If the named member loop reports a match, either the accumulator was
already set or some member's action mask covers the required right. -/
lemma namedMemberLoop_matched_imp (mbr : String) (mt : MemberType) (auth : Nat)
    (scan : Bool) :
    ∀ (ms : List Member) (a d : Bool), (namedMemberLoop mbr mt auth scan ms a d).1 = true →
      a = true ∨ ∃ m ∈ ms, IsActionAllowed m.actionMask auth = true := by
  intro ms
  induction ms with
  | nil => intro a d h; exact Or.inl h
  | cons m ms ih =>
    intro a d
    have step : ∀ (a' d' : Bool), a' = (a || IsActionAllowed m.actionMask auth) →
        (namedMemberLoop mbr mt auth scan ms a' d').1 = true →
        a = true ∨ ∃ m' ∈ m :: ms, IsActionAllowed m'.actionMask auth = true := by
      intro a' d' ha' h
      rcases ih a' d' h with h1 | ⟨m', hm', h2⟩
      · rw [ha'] at h1
        rcases Bool.or_eq_true_iff.mp h1 with h1 | h1
        · exact Or.inl h1
        · exact Or.inr ⟨m, List.mem_cons_self _ _, h1⟩
      · exact Or.inr ⟨m', List.mem_cons_of_mem _ hm', h2⟩
    have skip : (namedMemberLoop mbr mt auth scan ms a d).1 = true →
        a = true ∨ ∃ m' ∈ m :: ms, IsActionAllowed m'.actionMask auth = true := by
      intro h
      rcases ih a d h with h1 | ⟨m', hm', h2⟩
      · exact Or.inl h1
      · exact Or.inr ⟨m', List.mem_cons_of_mem _ hm', h2⟩
    by_cases c1 : m.memberName = ""
    · simpa only [namedMemberLoop, if_pos c1] using skip
    · by_cases c2 : ¬(m.memberName = mbr ∨ MatchesPfx mbr m.memberName = true)
      · simpa only [namedMemberLoop, if_neg c1, if_pos c2] using skip
      · by_cases c3 : m.memberType ≠ MemberType.notSpecified ∧ mt ≠ m.memberType
        · simpa only [namedMemberLoop, if_neg c1, if_neg c2, if_pos c3] using skip
        · by_cases c4 : (scan && (m.memberName = "*") && IsActionDenied m.actionMask) = true
          · simp only [namedMemberLoop, if_neg c1, if_neg c2, if_neg c3, if_pos c4]
            intro h
            simp at h
          · by_cases c5 : ((a || IsActionAllowed m.actionMask auth) && !scan) = true
            · simp only [namedMemberLoop, if_neg c1, if_neg c2, if_neg c3, if_neg c4, if_pos c5]
              intro h
              rcases Bool.or_eq_true_iff.mp h with h1 | h1
              · exact Or.inl h1
              · exact Or.inr ⟨m, List.mem_cons_self _ _, h1⟩
            · simp only [namedMemberLoop, if_neg c1, if_neg c2, if_neg c3, if_neg c4, if_neg c5]
              exact step _ _ rfl

/-- If `IsRuleMatched` reports a match for a request with a non-empty
member name, some member of the rule has an action mask that covers the
required right. -/
lemma isRuleMatched_matched_named_imp (r : Rule) (request : Request) (auth : Nat)
    (sc d strict : Bool) (hname : request.mbrName.getD "" ≠ "")
    (h : (IsRuleMatched r request auth sc d strict).1 = true) :
    ∃ m ∈ r.members, IsActionAllowed m.actionMask auth = true := by
  unfold IsRuleMatched at h
  split at h
  · simp at h
  split at h
  · simp at h
  split at h
  · simp at h
  split at h
  · simp at h
  split at h
  · simp at h
  rcases namedMemberLoop_matched_imp _ _ _ _ _ _ _ h with h1 | h1
  · simp at h1
  · exact h1

/-- With a null peer public key, the qualifier loop reduces to scanning
for `PEER_ALL` and (for a trusted peer) `PEER_ANY_TRUSTED` entries, and
the exact-key flag stays off. -/
lemma peerQualLoop_none_key (ps : PeerStateData) (trusted : Bool) (chain : List Nat) :
    ∀ (l : List Peer), peerQualLoop ps trusted none chain l =
      (l.any fun p => p.ptype = PeerType.all || (trusted && p.ptype = PeerType.anyTrusted),
       false) := by
  intro l
  induction l with
  | nil => simp [peerQualLoop]
  | cons p l ih =>
    simp only [peerQualLoop, List.any_cons]
    by_cases c1 : p.ptype = PeerType.all
    · simp [c1]
    · cases trusted
      · simp [c1, ih]
      · by_cases c3 : p.ptype = PeerType.anyTrusted
        · simp [c1, c3]
        · simp [c1, c3, ih]

/-- With the deny scan off, the ACL rule loop leaves `denied` untouched. -/
lemma aclRuleLoop_denied_of_not_scan (request : Request) (auth : Nat) (strict : Bool) :
    ∀ (rs : List Rule) (a d : Bool), (aclRuleLoop request auth false strict rs a d).2 = d := by
  intro rs
  induction rs with
  | nil => intro a d; rfl
  | cons r rs ih =>
    intro a d
    cases d
    · have hd : (IsRuleMatched r request auth false false strict).2 = false :=
        isRuleMatched_denied_of_not_scan _ _ _ _ _
      simp only [aclRuleLoop, hd]
      by_cases h1 : (IsRuleMatched r request auth false false strict).1 = true
      · simp [h1, ih]
      · simp only [Bool.not_eq_true] at h1
        simp [h1, hd, ih]
    · have hd : (IsRuleMatched r request auth false true strict).2 = true :=
        isRuleMatched_denied_of_not_scan _ _ _ _ _
      simp only [aclRuleLoop, hd]
      by_cases h1 : (IsRuleMatched r request auth false true strict).1 = true
      · simp [h1, ih]
      · simp only [Bool.not_eq_true] at h1
        simp [h1, hd]

/-- A standard AllJoyn/DBus interface is neither the Properties interface
nor one of the permission-management interfaces. -/
lemma isStdInterface_imp (s : String) (h : IsStdInterface s = true) :
    IsPropertyInterface s = false ∧ IsPermissionMgmtInterface s = false := by
  simp only [IsStdInterface, stdInterfaceNames, List.any_eq_true, List.mem_cons,
    List.not_mem_nil, or_false, decide_eq_true_eq] at h
  obtain ⟨x, hx, hsx⟩ := h
  subst hsx
  rcases hx with h | h | h | h | h | h | h | h | h | h <;> subst h <;> decide

end Ajn

/-- C8: a rule with zero members, an empty object path, or an empty
interface name never matches and never signals denied: `IsRuleMatched`
returns `false` and leaves the `denied` flag unchanged, for every request,
required right, scan flag and strictness flag. -/
theorem degenerate_rule_never_matches (rule : Ajn.Rule) (request : Ajn.Request)
    (auth : Nat) (sc d strict : Bool)
    (h : rule.members = [] ∨ rule.objPath = "" ∨ rule.interfaceName = "") :
    Ajn.IsRuleMatched rule request auth sc d strict = (false, d) := by
  rcases h with h | h | h <;> simp [Ajn.IsRuleMatched, h]

/-- Witness for C8 at a concrete degenerate rule. -/
theorem degenerate_rule_never_matches_witness :
    Ajn.IsRuleMatched ⟨"/app", "com.foo", []⟩
      ⟨false, false, false, "/app", "com.foo", some "DoIt", Ajn.MemberType.methodCall⟩
      4 true false false = (false, false) :=
  degenerate_rule_never_matches _ _ 4 true false false (Or.inl rfl)

/-- C9: when the peer's public key is unavailable (`peerPublicKey` null),
an ACL can qualify the peer only through a `PEER_ALL` entry or, for a
trusted peer, a `PEER_ANY_TRUSTED` entry; the `PEER_WITH_PUBLIC_KEY`,
`PEER_FROM_CERTIFICATE_AUTHORITY` and `PEER_WITH_MEMBERSHIP` entries are
all skipped (the result ignores the guild map and the issuer chain, even
when they hold valid membership chains), and the exact-key flag is never
set. -/
theorem null_key_qualifies_only_all_or_any_trusted (acl : Ajn.Acl)
    (ps : Ajn.PeerStateData) (trusted : Bool) (chain : List Nat) :
    Ajn.IsPeerQualifiedForAcl acl ps trusted none chain =
      (acl.peers.any fun p =>
        p.ptype = Ajn.PeerType.all || (trusted && p.ptype = Ajn.PeerType.anyTrusted),
       false) :=
  Ajn.peerQualLoop_none_key ps trusted chain acl.peers

/-- C10: the rule matcher's outputs are mutually exclusive: an invocation
that sets the `denied` flag (from a fresh flag) returns no-match, so the
ACL evaluator's `allowed` accumulator is never updated by the invocation
that triggers the deny short-circuit — the loop returns the accumulator it
had before that rule. -/
theorem matcher_denied_implies_no_match :
    (∀ (rule : Ajn.Rule) (request : Ajn.Request) (auth : Nat) (sc strict : Bool),
      (Ajn.IsRuleMatched rule request auth sc false strict).2 = true →
      (Ajn.IsRuleMatched rule request auth sc false strict).1 = false) ∧
    (∀ (rule : Ajn.Rule) (rs : List Ajn.Rule) (request : Ajn.Request) (auth : Nat)
      (sc strict allowed : Bool),
      (Ajn.IsRuleMatched rule request auth sc false strict).2 = true →
      Ajn.aclRuleLoop request auth sc strict (rule :: rs) allowed false = (allowed, true)) := by
  constructor
  · intro rule request auth sc strict h
    have := (Ajn.isRuleMatched_denied_imp rule request auth sc strict h).2.2.2.2
    simp [this]
  · intro rule rs request auth sc strict allowed h
    have heq := (Ajn.isRuleMatched_denied_imp rule request auth sc strict h).2.2.2.2
    simp [Ajn.aclRuleLoop, heq]

/-- Witness for C10 at a concrete explicit-deny rule and request. -/
theorem matcher_denied_implies_no_match_witness :
    Ajn.IsRuleMatched ⟨"*", "*", [⟨"*", Ajn.MemberType.notSpecified, 0⟩]⟩
      ⟨false, false, false, "/app", "com.foo", some "DoIt", Ajn.MemberType.methodCall⟩
      4 true false false = (false, true) ∧
    Ajn.aclRuleLoop
      ⟨false, false, false, "/app", "com.foo", some "DoIt", Ajn.MemberType.methodCall⟩
      4 true false
      [⟨"*", "*", [⟨"*", Ajn.MemberType.notSpecified, 0⟩]⟩,
       ⟨"/app", "com.foo", [⟨"DoIt", Ajn.MemberType.methodCall, 4⟩]⟩] true false =
      (true, true) := by
  constructor
  · have h2 : (Ajn.IsRuleMatched ⟨"*", "*", [⟨"*", Ajn.MemberType.notSpecified, 0⟩]⟩
        ⟨false, false, false, "/app", "com.foo", some "DoIt", Ajn.MemberType.methodCall⟩
        4 true false false).2 = true := by decide
    have h1 := matcher_denied_implies_no_match.1 _ _ 4 true false h2
    exact Prod.ext h1 h2
  · exact matcher_denied_implies_no_match.2 _ _ _ 4 true false true (by decide)

/-- C4: the matcher sets `denied` only when the scan flag was on, the
rule's object path and interface name are both exactly `"*"`, and some
member has name `"*"` with action mask 0; a rule whose object path or
interface name differs from `"*"`, or a call with `scanForDenied = false`,
leaves the `denied` output unchanged. -/
theorem matcher_denied_requires_wildcard_rule :
    (∀ (rule : Ajn.Rule) (request : Ajn.Request) (auth : Nat) (sc strict : Bool),
      (Ajn.IsRuleMatched rule request auth sc false strict).2 = true →
      sc = true ∧ rule.objPath = "*" ∧ rule.interfaceName = "*" ∧
      ∃ m ∈ rule.members, m.memberName = "*" ∧ m.actionMask = 0) ∧
    (∀ (rule : Ajn.Rule) (request : Ajn.Request) (auth : Nat) (sc d strict : Bool),
      rule.objPath ≠ "*" ∨ rule.interfaceName ≠ "*" →
      (Ajn.IsRuleMatched rule request auth sc d strict).2 = d) ∧
    (∀ (rule : Ajn.Rule) (request : Ajn.Request) (auth : Nat) (d strict : Bool),
      (Ajn.IsRuleMatched rule request auth false d strict).2 = d) := by
  refine ⟨?_, ?_, ?_⟩
  · intro rule request auth sc strict h
    obtain ⟨h1, h2, h3, h4, _⟩ := Ajn.isRuleMatched_denied_imp rule request auth sc strict h
    exact ⟨h1, h2, h3, h4⟩
  · intro rule request auth sc d strict h
    exact Ajn.isRuleMatched_denied_of_not_star rule request auth sc d strict h
  · intro rule request auth d strict
    exact Ajn.isRuleMatched_denied_of_not_scan rule request auth d strict

/-- Witness for C4: the deny conditions extracted at a concrete denying
invocation, a non-wildcard rule never denying, and a scan-off call never
denying. -/
theorem matcher_denied_requires_wildcard_rule_witness :
    (true = true ∧ ("*" : String) = "*" ∧ ("*" : String) = "*" ∧
      ∃ m ∈ [(⟨"*", Ajn.MemberType.notSpecified, 0⟩ : Ajn.Member)],
        m.memberName = "*" ∧ m.actionMask = 0) ∧
    (Ajn.IsRuleMatched ⟨"/app", "com.foo", [⟨"*", Ajn.MemberType.notSpecified, 0⟩]⟩
      ⟨false, false, false, "/app", "com.foo", some "DoIt", Ajn.MemberType.methodCall⟩
      4 true false false).2 = false ∧
    (Ajn.IsRuleMatched ⟨"*", "*", [⟨"*", Ajn.MemberType.notSpecified, 0⟩]⟩
      ⟨false, false, false, "/app", "com.foo", some "DoIt", Ajn.MemberType.methodCall⟩
      4 false false false).2 = false := by
  refine ⟨?_, ?_, ?_⟩
  · exact matcher_denied_requires_wildcard_rule.1
      ⟨"*", "*", [⟨"*", Ajn.MemberType.notSpecified, 0⟩]⟩
      ⟨false, false, false, "/app", "com.foo", some "DoIt", Ajn.MemberType.methodCall⟩
      4 true false (by decide)
  · exact matcher_denied_requires_wildcard_rule.2.1
      ⟨"/app", "com.foo", [⟨"*", Ajn.MemberType.notSpecified, 0⟩]⟩
      ⟨false, false, false, "/app", "com.foo", some "DoIt", Ajn.MemberType.methodCall⟩
      4 true false false (Or.inl (by decide))
  · exact matcher_denied_requires_wildcard_rule.2.2
      ⟨"*", "*", [⟨"*", Ajn.MemberType.notSpecified, 0⟩]⟩
      ⟨false, false, false, "/app", "com.foo", some "DoIt", Ajn.MemberType.methodCall⟩
      4 false false

/-- C1 counterexample: a request with member type `NOT_SPECIFIED` that is
not a property request derives required right 0, yet `IsAuthorized`
returns `false` — not `true` as the claim states — even with an
everything-allowing policy, an exact-key trusted peer and an
everything-allowing manifest (`authorized` is initialized `false` and the
policy/manifest blocks never run when the right is 0). -/
theorem notSpecified_request_refused_counterexample :
    Ajn.GenRight
      ⟨false, false, false, "/x", "com.foo", some "Bar", Ajn.MemberType.notSpecified⟩ = 0 ∧
    Ajn.IsAuthorized
      ⟨false, false, false, "/x", "com.foo", some "Bar", Ajn.MemberType.notSpecified⟩
      (some ⟨[⟨[⟨Ajn.PeerType.all, none, 0⟩],
        [⟨"*", "*", [⟨"*", Ajn.MemberType.notSpecified, 7⟩]⟩]⟩]⟩)
      ⟨[], [[⟨"*", "*", [⟨"*", Ajn.MemberType.notSpecified, 7⟩]⟩]], false, 0⟩
      ⟨true, Ajn.QStatus.ok, 0, Ajn.QStatus.ok, 15⟩
      ⟨Ajn.QStatus.ok, "mech", true, 5, []⟩ true = false := by
  decide

/-- C1 (amended): a request with member type `NOT_SPECIFIED` that is not a
property request derives required right 0, and `IsAuthorized` then returns
`false` for every policy, peer state, trust configuration and manifest set
(the code path that auto-allows such messages is the early `return ER_OK`
of `AuthorizeMessage` for non-method-call/non-signal messages, not
`IsAuthorized`). -/
theorem notSpecified_request_derives_no_right_and_is_refused
    (request : Ajn.Request) (policy : Option Ajn.PermissionPolicy)
    (ps : Ajn.PeerStateData) (mgmt : Ajn.MgmtObj) (meta : Ajn.AuthMetadata)
    (authenticated : Bool)
    (h1 : request.mbrType = Ajn.MemberType.notSpecified)
    (h2 : request.propertyRequest = false) :
    Ajn.GenRight request = 0 ∧
    Ajn.IsAuthorized request policy ps mgmt meta authenticated = false := by
  have hr : Ajn.GenRight request = 0 := by
    simp [Ajn.GenRight, h1, h2]
  exact ⟨hr, by simp [Ajn.IsAuthorized, hr]⟩

/-- Witness for the amended C1 at a concrete request. -/
theorem notSpecified_request_derives_no_right_and_is_refused_witness :
    Ajn.GenRight
      ⟨true, false, false, "/y", "com.bar", some "Sig", Ajn.MemberType.notSpecified⟩ = 0 ∧
    Ajn.IsAuthorized
      ⟨true, false, false, "/y", "com.bar", some "Sig", Ajn.MemberType.notSpecified⟩
      (some ⟨[]⟩) ⟨[], [], false, 0⟩ ⟨true, Ajn.QStatus.ok, 0, Ajn.QStatus.ok, 15⟩
      ⟨Ajn.QStatus.ok, "mech", true, 5, []⟩ false = false :=
  notSpecified_request_derives_no_right_and_is_refused _ _ _ _ _ _ rfl rfl

/-- C3: explicit-deny scanning is tied to exact-public-key qualification:
the scan flag handed to the ACL evaluator is the qualifier's
`qualifiedPeerWithPublicKey` output, so when the peer qualifies for an ACL
without an exact key match (`PEER_ALL`, `PEER_ANY_TRUSTED`, certificate
authority, or membership — qualifier output `(true, false)`), the ACL is
evaluated with the deny scan off: no rule of that ACL can set `denied`,
the ACL's verdict is exactly "some rule matches" (a matching allow grant
applies), and a single-ACL policy yields that verdict with `denied`
off. -/
theorem deny_scan_only_for_exact_key_qualification
    (request : Ajn.Request) (acl : Ajn.Acl) (ps : Ajn.PeerStateData) (t : Bool)
    (k : Option Nat) (ch : List Nat) (auth : Nat)
    (h : Ajn.IsPeerQualifiedForAcl acl ps t k ch = (true, false)) :
    (∀ acl₂ : Ajn.Acl, (Ajn.IsPeerQualifiedForAcl acl₂ ps t k ch).1 = true →
      Ajn.IsPeerAuthorized request ⟨[acl₂]⟩ ps t k ch auth =
        Ajn.IsPolicyAclMatched acl₂ request auth
          (Ajn.IsPeerQualifiedForAcl acl₂ ps t k ch).2 false) ∧
    (∀ d, (Ajn.IsPolicyAclMatched acl request auth false d).2 = d) ∧
    ((Ajn.IsPolicyAclMatched acl request auth false false).1 = true ↔
      ∃ r ∈ acl.rules,
        (Ajn.IsRuleMatched r request auth false false request.outgoing).1 = true) ∧
    (Ajn.IsPeerAuthorized request ⟨[acl]⟩ ps t k ch auth =
      ((Ajn.IsPolicyAclMatched acl request auth false false).1, false)) := by
  have hmain : ∀ acl₂ : Ajn.Acl, (Ajn.IsPeerQualifiedForAcl acl₂ ps t k ch).1 = true →
      Ajn.IsPeerAuthorized request ⟨[acl₂]⟩ ps t k ch auth =
        Ajn.IsPolicyAclMatched acl₂ request auth
          (Ajn.IsPeerQualifiedForAcl acl₂ ps t k ch).2 false := by
    intro acl₂ hq
    simp only [Ajn.IsPeerAuthorized, Ajn.peerAclsLoop, hq]
    cases hres2 : (Ajn.IsPolicyAclMatched acl₂ request auth
        (Ajn.IsPeerQualifiedForAcl acl₂ ps t k ch).2 false).2
    · cases hres1 : (Ajn.IsPolicyAclMatched acl₂ request auth
          (Ajn.IsPeerQualifiedForAcl acl₂ ps t k ch).2 false).1
      · simp [Ajn.peerAclsLoop, hres1, hres2, Prod.ext_iff]
      · simp [Ajn.peerAclsLoop, hres1, hres2, Prod.ext_iff]
    · cases hres1 : (Ajn.IsPolicyAclMatched acl₂ request auth
          (Ajn.IsPeerQualifiedForAcl acl₂ ps t k ch).2 false).1
      · simp [hres1, hres2, Prod.ext_iff]
      · simp [hres1, hres2, Prod.ext_iff]
  have hpres : ∀ d, (Ajn.IsPolicyAclMatched acl request auth false d).2 = d := by
    intro d
    exact Ajn.aclRuleLoop_denied_of_not_scan request auth request.outgoing acl.rules false d
  have hiff : (Ajn.IsPolicyAclMatched acl request auth false false).1 = true ↔
      ∃ r ∈ acl.rules,
        (Ajn.IsRuleMatched r request auth false false request.outgoing).1 = true := by
    have hno : ∀ r ∈ acl.rules,
        Ajn.ruleDenies request auth false request.outgoing r = false := fun r _ =>
      Ajn.isRuleMatched_denied_of_not_scan r request auth false request.outgoing
    have heq := Ajn.aclRuleLoop_of_no_denied request auth false request.outgoing
      acl.rules hno false
    show (Ajn.aclRuleLoop request auth false request.outgoing acl.rules false false).1 =
      true ↔ _
    rw [heq]
    simp [Ajn.ruleMatches, List.any_eq_true]
  refine ⟨hmain, hpres, hiff, ?_⟩
  have := hmain acl (by rw [h])
  rw [this, h]
  exact Prod.ext rfl (hpres false)

/-- Witness for C3 at a concrete ACL qualifying only via
`PEER_ANY_TRUSTED`: its explicit-deny rule is not scanned and the specific
allow grant applies. -/
theorem deny_scan_only_for_exact_key_qualification_witness :
    Ajn.IsPeerQualifiedForAcl
      ⟨[⟨Ajn.PeerType.anyTrusted, none, 0⟩],
       [⟨"*", "*", [⟨"*", Ajn.MemberType.notSpecified, 0⟩]⟩,
        ⟨"/app", "com.foo", [⟨"DoIt", Ajn.MemberType.methodCall, 4⟩]⟩]⟩
      ⟨[], [], false, 0⟩ true (some 5) [] = (true, false) ∧
    Ajn.IsPeerAuthorized
      ⟨false, false, false, "/app", "com.foo", some "DoIt", Ajn.MemberType.methodCall⟩
      ⟨[⟨[⟨Ajn.PeerType.anyTrusted, none, 0⟩],
         [⟨"*", "*", [⟨"*", Ajn.MemberType.notSpecified, 0⟩]⟩,
          ⟨"/app", "com.foo", [⟨"DoIt", Ajn.MemberType.methodCall, 4⟩]⟩]⟩]⟩
      ⟨[], [], false, 0⟩ true (some 5) [] 4 =
      ((Ajn.IsPolicyAclMatched
          ⟨[⟨Ajn.PeerType.anyTrusted, none, 0⟩],
           [⟨"*", "*", [⟨"*", Ajn.MemberType.notSpecified, 0⟩]⟩,
            ⟨"/app", "com.foo", [⟨"DoIt", Ajn.MemberType.methodCall, 4⟩]⟩]⟩
          ⟨false, false, false, "/app", "com.foo", some "DoIt", Ajn.MemberType.methodCall⟩
          4 false false).1, false) :=
  ⟨by decide,
   (deny_scan_only_for_exact_key_qualification
      ⟨false, false, false, "/app", "com.foo", some "DoIt", Ajn.MemberType.methodCall⟩
      ⟨[⟨Ajn.PeerType.anyTrusted, none, 0⟩],
       [⟨"*", "*", [⟨"*", Ajn.MemberType.notSpecified, 0⟩]⟩,
        ⟨"/app", "com.foo", [⟨"DoIt", Ajn.MemberType.methodCall, 4⟩]⟩]⟩
      ⟨[], [], false, 0⟩ true (some 5) [] 4 (by decide)).2.2.2⟩

/-- C2: deny overrides allow, and evaluation order does not change the
final verdict.  (1) If any applicable rule of any ACL the peer qualifies
for signals explicit deny (under that ACL's scan flag), `IsAuthorized`
returns `false`, however many rules signal allow.  (2) In the manifest
check (whose scan flag is hard-coded off): if the check authorizes, no
manifest rule signaled explicit deny — equivalently, any manifest rule
signaling deny forces not-authorized.  (3) Reordering the policy's ACLs
and the rules inside each ACL leaves the `IsAuthorized` verdict unchanged.
(4) Reordering the manifests and the rules inside each manifest leaves the
manifest verdict unchanged. -/
theorem deny_overrides_allow_and_order_independence (request : Ajn.Request)
    (pol : Ajn.PermissionPolicy) (ps : Ajn.PeerStateData) (mgmt : Ajn.MgmtObj)
    (meta : Ajn.AuthMetadata) (authenticated : Bool) :
    (Ajn.policyDenied request ps (Ajn.resolveTrust ps mgmt meta authenticated).trustedPeer
        (Ajn.resolveTrust ps mgmt meta authenticated).trustedPeerPublicKey
        (Ajn.resolveTrust ps mgmt meta authenticated).issuerPublicKeys
        (Ajn.GenRight request) pol = true →
      Ajn.IsAuthorized request (some pol) ps mgmt meta authenticated = false) ∧
    (Ajn.IsAuthorizedByPeerManifest request (Ajn.GenRight request) ps = true →
      Ajn.manifestDenySignal request (Ajn.GenRight request) ps = false) ∧
    (∀ pol₂, Ajn.PolicyEquivUpToOrder pol pol₂ →
      Ajn.IsAuthorized request (some pol) ps mgmt meta authenticated =
        Ajn.IsAuthorized request (some pol₂) ps mgmt meta authenticated) ∧
    (∀ mfs₂, Ajn.ManifestsEquivUpToOrder ps.manifests mfs₂ →
      Ajn.IsAuthorizedByPeerManifest request (Ajn.GenRight request) ps =
        Ajn.IsAuthorizedByPeerManifest request (Ajn.GenRight request)
          { ps with manifests := mfs₂ }) := by
  refine ⟨?_, ?_, ?_, ?_⟩
  · intro h
    rw [Ajn.isAuthorized_characterization]
    simp [h]
  · intro _
    exact Ajn.manifestDenySignal_false request (Ajn.GenRight request) ps
  · intro pol₂ hp
    rw [Ajn.isAuthorized_characterization, Ajn.isAuthorized_characterization]
    obtain ⟨hd, hm⟩ := Ajn.policyPred_eq_of_equiv request ps
      (Ajn.resolveTrust ps mgmt meta authenticated).trustedPeer
      (Ajn.resolveTrust ps mgmt meta authenticated).trustedPeerPublicKey
      (Ajn.resolveTrust ps mgmt meta authenticated).issuerPublicKeys
      (Ajn.GenRight request) hp
    rw [hd, hm]
  · intro mfs₂ hm
    rw [Ajn.isAuthorizedByPeerManifest_eq, Ajn.isAuthorizedByPeerManifest_eq]
    exact Ajn.manifestMatched_eq_of_equiv request (Ajn.GenRight request) ps hm

/-- Witness for C2: a policy whose exact-key ACL contains an explicit deny
plus an allow is refused; a matching manifest signals no deny; swapping
the two rules of the ACL, or the two manifests, leaves the verdicts
unchanged. -/
theorem deny_overrides_allow_and_order_independence_witness :
    Ajn.IsAuthorized
      ⟨false, false, false, "/app", "com.foo", some "DoIt", Ajn.MemberType.methodCall⟩
      (some ⟨[⟨[⟨Ajn.PeerType.withPublicKey, some 5, 0⟩],
        [⟨"*", "*", [⟨"*", Ajn.MemberType.notSpecified, 0⟩]⟩,
         ⟨"/app", "com.foo", [⟨"DoIt", Ajn.MemberType.methodCall, 4⟩]⟩]⟩]⟩)
      ⟨[], [], false, 0⟩ ⟨true, Ajn.QStatus.ok, 0, Ajn.QStatus.ok, 15⟩
      ⟨Ajn.QStatus.ok, "mech", true, 5, []⟩ true = false ∧
    Ajn.manifestDenySignal
      ⟨false, false, false, "/app", "com.foo", some "DoIt", Ajn.MemberType.methodCall⟩ 4
      ⟨[], [[⟨"/app", "com.foo", [⟨"DoIt", Ajn.MemberType.methodCall, 4⟩]⟩]], false, 0⟩ =
      false ∧
    Ajn.IsAuthorized
      ⟨false, false, false, "/app", "com.foo", some "DoIt", Ajn.MemberType.methodCall⟩
      (some ⟨[⟨[⟨Ajn.PeerType.withPublicKey, some 5, 0⟩],
        [⟨"*", "*", [⟨"*", Ajn.MemberType.notSpecified, 0⟩]⟩,
         ⟨"/app", "com.foo", [⟨"DoIt", Ajn.MemberType.methodCall, 4⟩]⟩]⟩]⟩)
      ⟨[], [], false, 0⟩ ⟨true, Ajn.QStatus.ok, 0, Ajn.QStatus.ok, 15⟩
      ⟨Ajn.QStatus.ok, "mech", true, 5, []⟩ true =
    Ajn.IsAuthorized
      ⟨false, false, false, "/app", "com.foo", some "DoIt", Ajn.MemberType.methodCall⟩
      (some ⟨[⟨[⟨Ajn.PeerType.withPublicKey, some 5, 0⟩],
        [⟨"/app", "com.foo", [⟨"DoIt", Ajn.MemberType.methodCall, 4⟩]⟩,
         ⟨"*", "*", [⟨"*", Ajn.MemberType.notSpecified, 0⟩]⟩]⟩]⟩)
      ⟨[], [], false, 0⟩ ⟨true, Ajn.QStatus.ok, 0, Ajn.QStatus.ok, 15⟩
      ⟨Ajn.QStatus.ok, "mech", true, 5, []⟩ true ∧
    Ajn.IsAuthorizedByPeerManifest
      ⟨false, false, false, "/app", "com.foo", some "DoIt", Ajn.MemberType.methodCall⟩ 4
      ⟨[], [[⟨"/a", "com.a", [⟨"A", Ajn.MemberType.methodCall, 4⟩]⟩],
            [⟨"/b", "com.b", [⟨"B", Ajn.MemberType.methodCall, 4⟩]⟩]], false, 0⟩ =
    Ajn.IsAuthorizedByPeerManifest
      ⟨false, false, false, "/app", "com.foo", some "DoIt", Ajn.MemberType.methodCall⟩ 4
      ⟨[], [[⟨"/b", "com.b", [⟨"B", Ajn.MemberType.methodCall, 4⟩]⟩],
            [⟨"/a", "com.a", [⟨"A", Ajn.MemberType.methodCall, 4⟩]⟩]], false, 0⟩ := by
  refine ⟨?_, ?_, ?_, ?_⟩
  · exact (deny_overrides_allow_and_order_independence
      ⟨false, false, false, "/app", "com.foo", some "DoIt", Ajn.MemberType.methodCall⟩
      ⟨[⟨[⟨Ajn.PeerType.withPublicKey, some 5, 0⟩],
        [⟨"*", "*", [⟨"*", Ajn.MemberType.notSpecified, 0⟩]⟩,
         ⟨"/app", "com.foo", [⟨"DoIt", Ajn.MemberType.methodCall, 4⟩]⟩]⟩]⟩
      ⟨[], [], false, 0⟩ ⟨true, Ajn.QStatus.ok, 0, Ajn.QStatus.ok, 15⟩
      ⟨Ajn.QStatus.ok, "mech", true, 5, []⟩ true).1 (by decide)
  · exact (deny_overrides_allow_and_order_independence
      ⟨false, false, false, "/app", "com.foo", some "DoIt", Ajn.MemberType.methodCall⟩
      ⟨[]⟩
      ⟨[], [[⟨"/app", "com.foo", [⟨"DoIt", Ajn.MemberType.methodCall, 4⟩]⟩]], false, 0⟩
      ⟨true, Ajn.QStatus.ok, 0, Ajn.QStatus.ok, 15⟩
      ⟨Ajn.QStatus.ok, "mech", true, 5, []⟩ true).2.1 (by decide)
  · exact (deny_overrides_allow_and_order_independence
      ⟨false, false, false, "/app", "com.foo", some "DoIt", Ajn.MemberType.methodCall⟩
      ⟨[⟨[⟨Ajn.PeerType.withPublicKey, some 5, 0⟩],
        [⟨"*", "*", [⟨"*", Ajn.MemberType.notSpecified, 0⟩]⟩,
         ⟨"/app", "com.foo", [⟨"DoIt", Ajn.MemberType.methodCall, 4⟩]⟩]⟩]⟩
      ⟨[], [], false, 0⟩ ⟨true, Ajn.QStatus.ok, 0, Ajn.QStatus.ok, 15⟩
      ⟨Ajn.QStatus.ok, "mech", true, 5, []⟩ true).2.2.1
      ⟨[⟨[⟨Ajn.PeerType.withPublicKey, some 5, 0⟩],
        [⟨"/app", "com.foo", [⟨"DoIt", Ajn.MemberType.methodCall, 4⟩]⟩,
         ⟨"*", "*", [⟨"*", Ajn.MemberType.notSpecified, 0⟩]⟩]⟩]⟩
      ⟨[⟨[⟨Ajn.PeerType.withPublicKey, some 5, 0⟩],
         [⟨"/app", "com.foo", [⟨"DoIt", Ajn.MemberType.methodCall, 4⟩]⟩,
          ⟨"*", "*", [⟨"*", Ajn.MemberType.notSpecified, 0⟩]⟩]⟩],
       List.Forall₂.cons ⟨rfl, List.Perm.swap _ _ _⟩ List.Forall₂.nil,
       List.Perm.refl _⟩
  · exact (deny_overrides_allow_and_order_independence
      ⟨false, false, false, "/app", "com.foo", some "DoIt", Ajn.MemberType.methodCall⟩
      ⟨[]⟩
      ⟨[], [[⟨"/a", "com.a", [⟨"A", Ajn.MemberType.methodCall, 4⟩]⟩],
            [⟨"/b", "com.b", [⟨"B", Ajn.MemberType.methodCall, 4⟩]⟩]], false, 0⟩
      ⟨true, Ajn.QStatus.ok, 0, Ajn.QStatus.ok, 15⟩
      ⟨Ajn.QStatus.ok, "mech", true, 5, []⟩ true).2.2.2
      [[⟨"/b", "com.b", [⟨"B", Ajn.MemberType.methodCall, 4⟩]⟩],
       [⟨"/a", "com.a", [⟨"A", Ajn.MemberType.methodCall, 4⟩]⟩]]
      ⟨[[⟨"/a", "com.a", [⟨"A", Ajn.MemberType.methodCall, 4⟩]⟩],
        [⟨"/b", "com.b", [⟨"B", Ajn.MemberType.methodCall, 4⟩]⟩]],
       List.Forall₂.cons (List.Perm.refl _)
         (List.Forall₂.cons (List.Perm.refl _) List.Forall₂.nil),
       List.Perm.swap _ _ _⟩

/-- C6 counterexample: for an incoming GetAllProperties request
(`strictGetAllProperties` is off because the request is not outgoing),
manifest enforcement is in effect and the policy allows the request, yet
the final result is authorized although the peer's only manifest member
has action mask 0 — no manifest member's action mask covers the required
right (`ACTION_OBSERVE`).  A manifest rule naming any member of the
interface suffices on this path. -/
theorem manifest_ceiling_counterexample :
    (Ajn.resolveTrust
      ⟨[], [[⟨"*", "*", [⟨"Foo", Ajn.MemberType.methodCall, 0⟩]⟩]], false, 0⟩
      ⟨true, Ajn.QStatus.ok, 0, Ajn.QStatus.ok, 15⟩
      ⟨Ajn.QStatus.ok, "mech", true, 5, []⟩ true).enforceManifest = true ∧
    Ajn.GenRight ⟨false, true, false, "/app", "com.foo", none, Ajn.MemberType.property⟩ =
      Ajn.ACTION_OBSERVE ∧
    Ajn.IsPeerAuthorized
      ⟨false, true, false, "/app", "com.foo", none, Ajn.MemberType.property⟩
      ⟨[⟨[⟨Ajn.PeerType.anyTrusted, none, 0⟩],
        [⟨"*", "*", [⟨"*", Ajn.MemberType.property, 2⟩]⟩]⟩]⟩
      ⟨[], [[⟨"*", "*", [⟨"Foo", Ajn.MemberType.methodCall, 0⟩]⟩]], false, 0⟩
      true (some 5) [] 2 = (true, false) ∧
    Ajn.IsAuthorized
      ⟨false, true, false, "/app", "com.foo", none, Ajn.MemberType.property⟩
      (some ⟨[⟨[⟨Ajn.PeerType.anyTrusted, none, 0⟩],
        [⟨"*", "*", [⟨"*", Ajn.MemberType.property, 2⟩]⟩]⟩]⟩)
      ⟨[], [[⟨"*", "*", [⟨"Foo", Ajn.MemberType.methodCall, 0⟩]⟩]], false, 0⟩
      ⟨true, Ajn.QStatus.ok, 0, Ajn.QStatus.ok, 15⟩
      ⟨Ajn.QStatus.ok, "mech", true, 5, []⟩ true = true ∧
    ([[(⟨"*", "*", [⟨"Foo", Ajn.MemberType.methodCall, 0⟩]⟩ : Ajn.Rule)]].all fun mf =>
      mf.all fun r => r.members.all fun m =>
        !Ajn.IsActionAllowed m.actionMask Ajn.ACTION_OBSERVE) = true := by
  decide

/-- C6 (amended): the manifest is a ceiling: whenever manifest enforcement
is in effect and `IsAuthorized` authorizes, at least one of the peer's
manifest rules matches the request under the rule matcher; for a request
with a named member the matching rule moreover contains a member whose
action mask covers the required right (for a GetAll property request with
strict mode off — an incoming request — a manifest rule naming any member
of the interface counts as a match without a mask check); and a peer with
zero manifests is never authorized when enforcement is in effect. -/
theorem manifest_is_a_ceiling (request : Ajn.Request) (pol : Ajn.PermissionPolicy)
    (ps : Ajn.PeerStateData) (mgmt : Ajn.MgmtObj) (meta : Ajn.AuthMetadata)
    (authd : Bool) :
    ((Ajn.resolveTrust ps mgmt meta authd).enforceManifest = true →
      Ajn.IsAuthorized request (some pol) ps mgmt meta authd = true →
      ∃ mf ∈ ps.manifests, ∃ r ∈ mf,
        (Ajn.IsRuleMatched r request (Ajn.GenRight request) false false
          request.outgoing).1 = true) ∧
    ((Ajn.resolveTrust ps mgmt meta authd).enforceManifest = true →
      Ajn.IsAuthorized request (some pol) ps mgmt meta authd = true →
      request.mbrName.getD "" ≠ "" →
      ∃ mf ∈ ps.manifests, ∃ r ∈ mf, ∃ m ∈ r.members,
        Ajn.IsActionAllowed m.actionMask (Ajn.GenRight request) = true) ∧
    (ps.manifests = [] → (Ajn.resolveTrust ps mgmt meta authd).enforceManifest = true →
      Ajn.IsAuthorized request (some pol) ps mgmt meta authd = false) := by
  have hmatch : (Ajn.resolveTrust ps mgmt meta authd).enforceManifest = true →
      Ajn.IsAuthorized request (some pol) ps mgmt meta authd = true →
      ∃ mf ∈ ps.manifests, ∃ r ∈ mf,
        (Ajn.IsRuleMatched r request (Ajn.GenRight request) false false
          request.outgoing).1 = true := by
    intro he hauth
    rw [Ajn.isAuthorized_characterization] at hauth
    rw [he] at hauth
    have hmm : Ajn.manifestMatched request (Ajn.GenRight request) ps = true := by
      rcases Bool.and_eq_true_iff.mp hauth with ⟨_, h⟩
      simpa using h
    simpa [Ajn.manifestMatched, Ajn.ruleMatches, List.any_eq_true] using hmm
  refine ⟨hmatch, ?_, ?_⟩
  · intro he hauth hname
    obtain ⟨mf, hmf, r, hr, hmatched⟩ := hmatch he hauth
    obtain ⟨m, hm, hcov⟩ := Ajn.isRuleMatched_matched_named_imp r request
      (Ajn.GenRight request) false false request.outgoing hname hmatched
    exact ⟨mf, hmf, r, hr, m, hm, hcov⟩
  · intro hmf he
    rw [Ajn.isAuthorized_characterization, he]
    have : Ajn.manifestMatched request (Ajn.GenRight request) ps = false := by
      simp [Ajn.manifestMatched, hmf]
    simp [this]

/-- Witness for the amended C6: a method call authorized under enforcement
has a matching manifest rule with a covering member; a peer with zero
manifests is refused. -/
theorem manifest_is_a_ceiling_witness :
    (∃ mf ∈ [[(⟨"/app", "com.foo", [⟨"DoIt", Ajn.MemberType.methodCall, 4⟩]⟩ : Ajn.Rule)]],
      ∃ r ∈ mf, ∃ m ∈ r.members, Ajn.IsActionAllowed m.actionMask
        (Ajn.GenRight ⟨false, false, false, "/app", "com.foo", some "DoIt",
          Ajn.MemberType.methodCall⟩) = true) ∧
    Ajn.IsAuthorized
      ⟨false, false, false, "/app", "com.foo", some "DoIt", Ajn.MemberType.methodCall⟩
      (some ⟨[⟨[⟨Ajn.PeerType.anyTrusted, none, 0⟩],
        [⟨"/app", "com.foo", [⟨"DoIt", Ajn.MemberType.methodCall, 4⟩]⟩]⟩]⟩)
      ⟨[], [], false, 0⟩ ⟨true, Ajn.QStatus.ok, 0, Ajn.QStatus.ok, 15⟩
      ⟨Ajn.QStatus.ok, "mech", true, 5, []⟩ true = false := by
  constructor
  · exact (manifest_is_a_ceiling
      ⟨false, false, false, "/app", "com.foo", some "DoIt", Ajn.MemberType.methodCall⟩
      ⟨[⟨[⟨Ajn.PeerType.anyTrusted, none, 0⟩],
        [⟨"/app", "com.foo", [⟨"DoIt", Ajn.MemberType.methodCall, 4⟩]⟩]⟩]⟩
      ⟨[], [[⟨"/app", "com.foo", [⟨"DoIt", Ajn.MemberType.methodCall, 4⟩]⟩]], false, 0⟩
      ⟨true, Ajn.QStatus.ok, 0, Ajn.QStatus.ok, 15⟩
      ⟨Ajn.QStatus.ok, "mech", true, 5, []⟩ true).2.1
      (by decide) (by decide) (by decide)
  · exact (manifest_is_a_ceiling
      ⟨false, false, false, "/app", "com.foo", some "DoIt", Ajn.MemberType.methodCall⟩
      ⟨[⟨[⟨Ajn.PeerType.anyTrusted, none, 0⟩],
        [⟨"/app", "com.foo", [⟨"DoIt", Ajn.MemberType.methodCall, 4⟩]⟩]⟩]⟩
      ⟨[], [], false, 0⟩ ⟨true, Ajn.QStatus.ok, 0, Ajn.QStatus.ok, 15⟩
      ⟨Ajn.QStatus.ok, "mech", true, 5, []⟩ true).2.2 rfl (by decide)

/-- C5 counterexample: a method call on the Properties interface with an
unknown member, on a device with a configured permission-management object
and no trust anchors, is not handled by the permission-management gate
(the Properties interface is not a permission-management interface), yet
`AuthorizeMessage` returns the classification error `ER_FAIL` — not
`ER_OK` as the claim states for everything but permission-management
method calls. -/
theorem unclaimed_auto_allow_counterexample :
    Ajn.AuthorizeMessage false
      ⟨Ajn.MessageType.methodCall, "/x", Ajn.propertiesInterfaceName, "Frobnicate",
        [Ajn.MsgArg.strArg "com.foo", Ajn.MsgArg.strArg "Prop"]⟩
      ⟨[], [], false, 0⟩ (some ⟨false, Ajn.QStatus.ok, 0, Ajn.QStatus.ok, 15⟩)
      (some ⟨[]⟩) ⟨Ajn.QStatus.ok, "mech", true, 5, []⟩ true = Ajn.QStatus.fail ∧
    Ajn.QStatus.fail ≠ Ajn.QStatus.ok ∧
    Ajn.IsPermissionMgmtInterface Ajn.propertiesInterfaceName = false := by
  decide

/-- C5 (amended): unclaimed-device rule, restricted to messages that
classify successfully: for every method-call or signal message with a
configured permission-management object reporting no trust anchors, whose
classification succeeds and which the permission-management gate does not
handle, `AuthorizeMessage` returns `ER_PERMISSION_DENIED` exactly when the
classified request targets a permission-management interface with member
type method-call, and `ER_OK` otherwise; the verdict never consults the
policy (the policy is universally quantified and absent from the result).
A Properties-interface message that fails classification returns the
classification error instead. -/
theorem unclaimed_device_gate (outgoing : Bool) (msg : Ajn.Message)
    (ps : Ajn.PeerStateData) (mgmt : Ajn.MgmtObj)
    (policy : Option Ajn.PermissionPolicy) (meta : Ajn.AuthMetadata) (authd : Bool)
    (h1 : msg.msgType = Ajn.MessageType.methodCall ∨ msg.msgType = Ajn.MessageType.signal)
    (h2 : mgmt.hasTrustAnchors = false)
    (h3 : (Ajn.classifyRequest outgoing msg).1 = Ajn.QStatus.ok)
    (h4 : Ajn.IsPermissionMgmtInterface (Ajn.classifyRequest outgoing msg).2.iName = true →
      (Ajn.AuthorizePermissionMgmt outgoing (Ajn.classifyRequest outgoing msg).2.iName
        (Ajn.classifyRequest outgoing msg).2.mbrName ps mgmt).1 = false) :
    Ajn.AuthorizeMessage outgoing msg ps (some mgmt) policy meta authd =
      (if Ajn.IsPermissionMgmtInterface (Ajn.classifyRequest outgoing msg).2.iName = true ∧
          (Ajn.classifyRequest outgoing msg).2.mbrType = Ajn.MemberType.methodCall
       then Ajn.QStatus.permissionDenied else Ajn.QStatus.ok) := by
  have hmt : ¬(msg.msgType ≠ Ajn.MessageType.methodCall ∧
      msg.msgType ≠ Ajn.MessageType.signal) := by
    rcases h1 with h | h <;> simp [h]
  by_cases hstd : Ajn.IsStdInterface msg.interfaceName = true
  · obtain ⟨hprop, hpm⟩ := Ajn.isStdInterface_imp _ hstd
    have hiname : (Ajn.classifyRequest outgoing msg).2.iName = msg.interfaceName := by
      simp [Ajn.classifyRequest, hprop]
    rw [hiname]
    simp [Ajn.AuthorizeMessage, if_neg hmt, hstd, hpm]
  · simp only [Bool.not_eq_true] at hstd
    by_cases hpm : Ajn.IsPermissionMgmtInterface (Ajn.classifyRequest outgoing msg).2.iName
      = true
    · have hg := h4 hpm
      simp [Ajn.AuthorizeMessage, if_neg hmt, hstd, h3, hpm, hg, h2]
    · simp only [Bool.not_eq_true] at hpm
      simp [Ajn.AuthorizeMessage, if_neg hmt, hstd, h3, hpm, h2]

/-- Witness for the amended C5: on an unclaimed device, a `Reset` method
call on the Security.Application interface (not handled by the gate) is
denied, per the permission-management method-call exception. -/
theorem unclaimed_device_gate_witness :
    Ajn.AuthorizeMessage false
      ⟨Ajn.MessageType.methodCall, "/x", Ajn.securityApplicationInterfaceName, "Reset", []⟩
      ⟨[], [], false, 0⟩ (some ⟨false, Ajn.QStatus.ok, 0, Ajn.QStatus.ok, 15⟩)
      (some ⟨[]⟩) ⟨Ajn.QStatus.ok, "mech", true, 5, []⟩ true =
      (if Ajn.IsPermissionMgmtInterface
            (Ajn.classifyRequest false
              ⟨Ajn.MessageType.methodCall, "/x", Ajn.securityApplicationInterfaceName,
                "Reset", []⟩).2.iName = true ∧
          (Ajn.classifyRequest false
            ⟨Ajn.MessageType.methodCall, "/x", Ajn.securityApplicationInterfaceName,
              "Reset", []⟩).2.mbrType = Ajn.MemberType.methodCall
       then Ajn.QStatus.permissionDenied else Ajn.QStatus.ok) :=
  unclaimed_device_gate false
    ⟨Ajn.MessageType.methodCall, "/x", Ajn.securityApplicationInterfaceName, "Reset", []⟩
    ⟨[], [], false, 0⟩ ⟨false, Ajn.QStatus.ok, 0, Ajn.QStatus.ok, 15⟩
    (some ⟨[]⟩) ⟨Ajn.QStatus.ok, "mech", true, 5, []⟩ true
    (Or.inl rfl) rfl (by decide) (fun _ => by decide)

/-- C7 counterexample: a Properties-interface message whose member name is
none of GetAll/Get/Set/PropertiesChanged fails classification with the
generic error `ER_FAIL`, not the "invalid data" error the claim names, and
`AuthorizeMessage` propagates that `ER_FAIL` (the message even carries two
well-formed string arguments, so the failure is due to the member name
alone). -/
theorem properties_classification_error_code_counterexample :
    (Ajn.ParsePropertiesMessage
      (Ajn.Request.fromMessage
        ⟨Ajn.MessageType.methodCall, "/x", Ajn.propertiesInterfaceName, "Frobnicate",
          [Ajn.MsgArg.strArg "com.foo", Ajn.MsgArg.strArg "Prop"]⟩ false)
      ⟨Ajn.MessageType.methodCall, "/x", Ajn.propertiesInterfaceName, "Frobnicate",
        [Ajn.MsgArg.strArg "com.foo", Ajn.MsgArg.strArg "Prop"]⟩).1 = Ajn.QStatus.fail ∧
    Ajn.QStatus.fail ≠ Ajn.QStatus.invalidData ∧
    Ajn.AuthorizeMessage false
      ⟨Ajn.MessageType.methodCall, "/x", Ajn.propertiesInterfaceName, "Frobnicate",
        [Ajn.MsgArg.strArg "com.foo", Ajn.MsgArg.strArg "Prop"]⟩
      ⟨[], [], false, 0⟩ (some ⟨true, Ajn.QStatus.ok, 0, Ajn.QStatus.ok, 15⟩)
      (some ⟨[]⟩) ⟨Ajn.QStatus.ok, "mech", true, 5, []⟩ true = Ajn.QStatus.fail := by
  decide

/-- C7 (amended): classification failure modes of the Properties
interface, as the code implements them.  (1) A member name that starts
with none of GetAll/Get/Set/PropertiesChanged fails with the generic
`ER_FAIL`.  (2) An outgoing GetAll with fewer than 1 argument, (3) a
Get/Set with fewer than 2 arguments, and (4) a PropertiesChanged with
fewer than 1 argument fail with `ER_INVALID_DATA`; an incoming GetAll with
no arguments fails with the argument-unpack error instead (5).  (6) Any
classification failure propagates immediately as `AuthorizeMessage`'s
result, for every policy and peer state — no fallback to policy
evaluation. -/
theorem properties_classification_failure_modes :
    (∀ (request : Ajn.Request) (msg : Ajn.Message),
      Ajn.strStartsWith msg.memberName "GetAll" = false →
      Ajn.strStartsWith msg.memberName "Get" = false →
      Ajn.strStartsWith msg.memberName "Set" = false →
      Ajn.strStartsWith msg.memberName "PropertiesChanged" = false →
      (Ajn.ParsePropertiesMessage request msg).1 = Ajn.QStatus.fail) ∧
    (∀ (request : Ajn.Request) (msg : Ajn.Message),
      request.outgoing = true → Ajn.strStartsWith msg.memberName "GetAll" = true →
      msg.args.length < 1 →
      (Ajn.ParsePropertiesMessage request msg).1 = Ajn.QStatus.invalidData) ∧
    (∀ (request : Ajn.Request) (msg : Ajn.Message),
      Ajn.strStartsWith msg.memberName "GetAll" = false →
      (Ajn.strStartsWith msg.memberName "Get" = true ∨
        Ajn.strStartsWith msg.memberName "Set" = true) →
      msg.args.length < 2 →
      (Ajn.ParsePropertiesMessage request msg).1 = Ajn.QStatus.invalidData) ∧
    (∀ (request : Ajn.Request) (msg : Ajn.Message),
      Ajn.strStartsWith msg.memberName "GetAll" = false →
      Ajn.strStartsWith msg.memberName "Get" = false →
      Ajn.strStartsWith msg.memberName "Set" = false →
      Ajn.strStartsWith msg.memberName "PropertiesChanged" = true →
      msg.args.length < 1 →
      (Ajn.ParsePropertiesMessage request msg).1 = Ajn.QStatus.invalidData) ∧
    (∀ (request : Ajn.Request) (msg : Ajn.Message),
      request.outgoing = false → Ajn.strStartsWith msg.memberName "GetAll" = true →
      msg.args = [] →
      (Ajn.ParsePropertiesMessage request msg).1 = Ajn.QStatus.busSignatureMismatch) ∧
    (∀ (outgoing : Bool) (msg : Ajn.Message) (ps : Ajn.PeerStateData)
      (mgmtObj : Option Ajn.MgmtObj) (policy : Option Ajn.PermissionPolicy)
      (meta : Ajn.AuthMetadata) (authd : Bool),
      (msg.msgType = Ajn.MessageType.methodCall ∨ msg.msgType = Ajn.MessageType.signal) →
      msg.interfaceName = Ajn.propertiesInterfaceName →
      (Ajn.ParsePropertiesMessage (Ajn.Request.fromMessage msg outgoing) msg).1 ≠
        Ajn.QStatus.ok →
      Ajn.AuthorizeMessage outgoing msg ps mgmtObj policy meta authd =
        (Ajn.ParsePropertiesMessage (Ajn.Request.fromMessage msg outgoing) msg).1) := by
  refine ⟨?_, ?_, ?_, ?_, ?_, ?_⟩
  · intro request msg hga hg hs hpc
    simp [Ajn.ParsePropertiesMessage, hga, hg, hs, hpc]
  · intro request msg ho hga hlen
    simp [Ajn.ParsePropertiesMessage, hga, ho, hlen]
  · intro request msg hga hgs hlen
    have hor : (Ajn.strStartsWith msg.memberName "Get" ||
        Ajn.strStartsWith msg.memberName "Set") = true := by
      rcases hgs with h | h <;> simp [h]
    simp [Ajn.ParsePropertiesMessage, hga, hor, hlen, Nat.not_le.mpr hlen]
  · intro request msg hga hg hs hpc hlen
    simp [Ajn.ParsePropertiesMessage, hga, hg, hs, hpc, hlen]
  · intro request msg ho hga hargs
    simp [Ajn.ParsePropertiesMessage, hga, ho, hargs, Ajn.msgGetArgsString]
  · intro outgoing msg ps mgmtObj policy meta authd h1 hiface hfail
    have hmt : ¬(msg.msgType ≠ Ajn.MessageType.methodCall ∧
        msg.msgType ≠ Ajn.MessageType.signal) := by
      rcases h1 with h | h <;> simp [h]
    have hstd : Ajn.IsStdInterface msg.interfaceName = false := by
      rw [hiface]; decide
    have hprop : Ajn.IsPropertyInterface msg.interfaceName = true := by
      rw [hiface]; decide
    simp [Ajn.AuthorizeMessage, if_neg hmt, hstd, Ajn.classifyRequest, hprop, hfail]

/-- Witness for the amended C7 at concrete malformed messages: unknown
member, short outgoing GetAll, short Get, short PropertiesChanged, empty
incoming GetAll, and end-to-end propagation of `ER_FAIL`. -/
theorem properties_classification_failure_modes_witness :
    (Ajn.ParsePropertiesMessage
      (Ajn.Request.fromMessage
        ⟨Ajn.MessageType.methodCall, "/x", Ajn.propertiesInterfaceName, "Qux", []⟩ false)
      ⟨Ajn.MessageType.methodCall, "/x", Ajn.propertiesInterfaceName, "Qux", []⟩).1 =
      Ajn.QStatus.fail ∧
    (Ajn.ParsePropertiesMessage
      (Ajn.Request.fromMessage
        ⟨Ajn.MessageType.methodCall, "/x", Ajn.propertiesInterfaceName, "GetAll", []⟩ true)
      ⟨Ajn.MessageType.methodCall, "/x", Ajn.propertiesInterfaceName, "GetAll", []⟩).1 =
      Ajn.QStatus.invalidData ∧
    (Ajn.ParsePropertiesMessage
      (Ajn.Request.fromMessage
        ⟨Ajn.MessageType.methodCall, "/x", Ajn.propertiesInterfaceName, "Get",
          [Ajn.MsgArg.strArg "com.foo"]⟩ false)
      ⟨Ajn.MessageType.methodCall, "/x", Ajn.propertiesInterfaceName, "Get",
        [Ajn.MsgArg.strArg "com.foo"]⟩).1 = Ajn.QStatus.invalidData ∧
    (Ajn.ParsePropertiesMessage
      (Ajn.Request.fromMessage
        ⟨Ajn.MessageType.signal, "/x", Ajn.propertiesInterfaceName, "PropertiesChanged",
          []⟩ false)
      ⟨Ajn.MessageType.signal, "/x", Ajn.propertiesInterfaceName, "PropertiesChanged",
        []⟩).1 = Ajn.QStatus.invalidData ∧
    (Ajn.ParsePropertiesMessage
      (Ajn.Request.fromMessage
        ⟨Ajn.MessageType.methodCall, "/x", Ajn.propertiesInterfaceName, "GetAll", []⟩ false)
      ⟨Ajn.MessageType.methodCall, "/x", Ajn.propertiesInterfaceName, "GetAll", []⟩).1 =
      Ajn.QStatus.busSignatureMismatch ∧
    Ajn.AuthorizeMessage false
      ⟨Ajn.MessageType.methodCall, "/x", Ajn.propertiesInterfaceName, "Qux", []⟩
      ⟨[], [], false, 0⟩ (some ⟨true, Ajn.QStatus.ok, 0, Ajn.QStatus.ok, 15⟩)
      (some ⟨[]⟩) ⟨Ajn.QStatus.ok, "mech", true, 5, []⟩ true =
      (Ajn.ParsePropertiesMessage
        (Ajn.Request.fromMessage
          ⟨Ajn.MessageType.methodCall, "/x", Ajn.propertiesInterfaceName, "Qux", []⟩ false)
        ⟨Ajn.MessageType.methodCall, "/x", Ajn.propertiesInterfaceName, "Qux", []⟩).1 := by
  refine ⟨?_, ?_, ?_, ?_, ?_, ?_⟩
  · exact properties_classification_failure_modes.1 _
      ⟨Ajn.MessageType.methodCall, "/x", Ajn.propertiesInterfaceName, "Qux", []⟩
      (by decide) (by decide) (by decide) (by decide)
  · exact properties_classification_failure_modes.2.1 _
      ⟨Ajn.MessageType.methodCall, "/x", Ajn.propertiesInterfaceName, "GetAll", []⟩
      rfl (by decide) (by decide)
  · exact properties_classification_failure_modes.2.2.1 _
      ⟨Ajn.MessageType.methodCall, "/x", Ajn.propertiesInterfaceName, "Get",
        [Ajn.MsgArg.strArg "com.foo"]⟩
      (by decide) (Or.inl (by decide)) (by decide)
  · exact properties_classification_failure_modes.2.2.2.1 _
      ⟨Ajn.MessageType.signal, "/x", Ajn.propertiesInterfaceName, "PropertiesChanged", []⟩
      (by decide) (by decide) (by decide) (by decide) (by decide)
  · exact properties_classification_failure_modes.2.2.2.2.1 _
      ⟨Ajn.MessageType.methodCall, "/x", Ajn.propertiesInterfaceName, "GetAll", []⟩
      rfl (by decide) rfl
  · exact properties_classification_failure_modes.2.2.2.2.2 false
      ⟨Ajn.MessageType.methodCall, "/x", Ajn.propertiesInterfaceName, "Qux", []⟩
      ⟨[], [], false, 0⟩ (some ⟨true, Ajn.QStatus.ok, 0, Ajn.QStatus.ok, 15⟩)
      (some ⟨[]⟩) ⟨Ajn.QStatus.ok, "mech", true, 5, []⟩ true
      (Or.inl rfl) rfl (by decide)
